import Mathlib

/-!
Verification of the artifact-to-volume data-passing rewriter from
src/backend/metadata_writer/src/metadata_helpers.py
(functions rewrite_data_passing, line 597, its inner helper
convert_artifact_reference_to_parameter_reference, line 612, and
transform_workflow, line 736).

The Python code operates on generic dict/list trees.  We embed the shapes it
actually reads and writes as records with optional fields: an absent dict key
is `none`.  Strings are lists of characters (`Str`).  Dynamic failures of the
Python code (KeyError, NameError, AttributeError, NotImplementedError) become
values of the `Err` type and the computation runs in `Except Err`.

Brace characters inside string literals are written with the escapes
\x7b and \x7d throughout.
-/

set_option autoImplicit false

abbrev Str := List Char

/-- Errors the Python function can raise during the rewrite. -/
inductive Err where
  | keyError (k : Str)
  | notImplementedError
  | nameError
  | attributeError
deriving DecidableEq, Repr

/-- An entry of a container's volumeMounts list (the dicts appended at lines
640 and 664).  `readOnly = none` models the absence of the readOnly key. -/
structure VolumeMount where
  mountPath : Str
  name : Str
  subPath : Str
  readOnly : Option Bool := none
deriving DecidableEq, Repr

/-- An artifact dict.  Container-template artifacts carry `path`; DAG outputs
and task arguments carry `from` (here `fromRef`).  An absent key is `none`. -/
structure Artifact where
  name : Str
  path : Option Str := none
  fromRef : Option Str := none
deriving DecidableEq, Repr

/-- A parameter dict.  The rewriter appends parameters of three shapes:
name only (line 646), name+value (lines 669, 717), and name+valueFrom
(line 700, where the Python nests the string under a one-key
dict: valueFrom maps 'parameter' to the reference; we keep the string). -/
structure Parameter where
  name : Str
  value : Option Str := none
  valueFrom : Option Str := none
deriving DecidableEq, Repr

/-- The inputs / outputs / arguments sections: dicts with optional
`artifacts` and `parameters` lists. -/
structure IOSpec where
  artifacts : Option (List Artifact) := none
  parameters : Option (List Parameter) := none
deriving DecidableEq, Repr

/-- The container spec dict.  Only its `volumeMounts` key is read or written;
`otherKeys` records whether the dict has any other keys, which determines its
Python truthiness in the expression `template['container'] or
template['steps']` at line 629. -/
structure ContainerSpec where
  volumeMounts : Option (List VolumeMount) := none
  otherKeys : Bool := true
deriving DecidableEq, Repr

/-- A DAG task or a step.  Only its `arguments` key is touched. -/
structure DagTask where
  arguments : Option IOSpec := none
deriving DecidableEq, Repr

/-- The dag spec dict with its optional `tasks` list. -/
structure DagSpec where
  tasks : Option (List DagTask) := none
deriving DecidableEq, Repr

/-- A workflow template.  The three marker keys `container`, `script`
(presence only), `dag` and `steps` discriminate the template kinds. -/
structure Template where
  container : Option ContainerSpec := none
  script : Bool := false
  dag : Option DagSpec := none
  steps : Option (List (List DagTask)) := none
  inputs : Option IOSpec := none
  outputs : Option IOSpec := none
deriving DecidableEq, Repr

/-- A volume descriptor dict: its `name` key plus all the keys the rewriter
never touches, kept abstractly as an association list. -/
structure Volume where
  name : Option Str := none
  otherFields : List (Str × Str) := []
deriving DecidableEq, Repr

/-- The workflow spec dict. -/
structure WorkflowSpec where
  templates : List Template
  volumes : Option (List Volume) := none
  arguments : Option IOSpec := none
deriving DecidableEq, Repr

/-- The workflow dict. -/
structure Workflow where
  spec : WorkflowSpec
deriving DecidableEq, Repr

/-! ## posixpath helpers

`os.path.basename` and `os.path.dirname` for POSIX paths, translated from
CPython's posixpath.py: split at the last '/'; dirname keeps the part before
it and strips trailing slashes unless the head is all slashes. -/

/-- Index just after the last '/' of `p` (0 when there is no slash),
i.e. Python's `p.rfind('/') + 1`. -/
def splitIdx (p : Str) : Nat :=
  match p.reverse.findIdx? (fun c => c = '/') with
  | none => 0
  | some k => p.length - k

/-- os.path.basename: the part after the last '/'. -/
def basename (p : Str) : Str := p.drop (splitIdx p)

/-- Strip trailing '/' characters. -/
def dropTrailingSlashes (l : Str) : Str := (l.reverse.dropWhile (fun c => c = '/')).reverse

/-- os.path.dirname: the part before the last '/', with trailing slashes
stripped unless the head consists only of slashes. -/
def dirname (p : Str) : Str :=
  let head := p.take (splitIdx p)
  if head = [] then []
  else if head.all (fun c => c = '/') then head
  else dropTrailingSlashes head

/-! ## The Reference Translator

Lines 612-618: `re.sub(r'\x7b\x7b([^\x7d]+)\.artifacts\.([^\x7d]+)\x7d\x7d', ...)`.
A match is a token of the form open-brace pair, a run of non-brace characters
containing '.artifacts.' with nonempty text on both sides, then a close-brace
pair.  The first group is greedy, so the token is split at the LAST
occurrence of '.artifacts.' that leaves a nonempty second group.  `re.sub`
scans left to right, replacing non-overlapping matches. -/

/-- The literal separator '.artifacts.' of the regex. -/
def sepChars : Str := ".artifacts.".data

/-- The constant suffix appended to artifact names (line 610). -/
def subpath_parameter_name_suffix : Str := "-subpath".data

/-- Split a character run at the last occurrence of `sepChars` that leaves a
nonempty remainder; the part before the separator may be empty. -/
def lastSplit0 : Str → Option (Str × Str)
  | [] => none
  | c :: cs =>
    match lastSplit0 cs with
    | some (g1, g2) => some (c :: g1, g2)
    | none =>
      if sepChars.isPrefixOf (c :: cs) ∧ (c :: cs).drop 11 ≠ [] then
        some ([], (c :: cs).drop 11)
      else none

/-- Split at the last occurrence of `sepChars` with nonempty text on both
sides (both regex groups are `[^\x7d]+`, hence nonempty). -/
def lastSplit (c : Str) : Option (Str × Str) :=
  match c with
  | [] => none
  | c0 :: cs => (lastSplit0 cs).map (fun g => (c0 :: g.1, g.2))

/-- The character class `[^\x7d]` of the regex. -/
def notRBrace (c : Char) : Bool := c ≠ '\x7d'

/-- Try to match the regex at the start of `s`; on success return the
replacement text and the rest of the input after the match. -/
def tryMatch (s : Str) : Option (Str × Str) :=
  match s with
  | c1 :: c2 :: t =>
    if c1 = '\x7b' ∧ c2 = '\x7b' then
      match t.drop (t.takeWhile notRBrace).length with
      | d1 :: d2 :: r =>
        if d1 = '\x7d' ∧ d2 = '\x7d' then
          match lastSplit (t.takeWhile notRBrace) with
          | some (g1, g2) =>
            some ("\x7b\x7b".data ++ g1 ++ ".parameters.".data ++ g2 ++
                  subpath_parameter_name_suffix ++ "\x7d\x7d".data, r)
          | none => none
        else none
      | _ => none
    else none
  | _ => none

/-- Left-to-right scan of `re.sub`: at each position try a match; on success
emit the replacement and continue after the match, otherwise emit one
character.  The fuel argument bounds the recursion; every step consumes at
least one input character, so fuel equal to the input length suffices. -/
def reSubFuel : Nat → Str → Str
  | 0, s => s
  | _ + 1, [] => []
  | fuel + 1, c :: cs =>
    match tryMatch (c :: cs) with
    | some (rep, r) => rep ++ reSubFuel fuel r
    | none => c :: reSubFuel fuel cs

/-- Lines 612-618: convert an artifact reference to a parameter reference by
regex substitution over the character list. -/
def convert_artifact_reference_to_parameter_reference (reference : Str) : Str :=
  reSubFuel reference.length reference

/-! ## The rewriter -/

/-- The fixed shared volume name (line 607). -/
def data_volume_name : Str := "data-storage".data

/-- The default path prefix (line 597 default argument). -/
def defaultPathPrefix : Str := "artifact_data/".data

/-- Python set `.add`: append the name if it is not already present. -/
def addName (ns : List Str) (n : Str) : List Str :=
  if n ∈ ns then ns else ns ++ [n]

/-- What line 629 bound `container_spec` to: either the container dict or,
when the container dict is falsy, the steps list. -/
inductive CSKind where
  | dict
  | stepsList
deriving DecidableEq, Repr

/-- Python truthiness of the container spec dict. -/
def csTruthy (cs : ContainerSpec) : Bool := cs.volumeMounts.isSome || cs.otherKeys

/-- The input artifacts list of a template, `template.get('inputs',
\x7b\x7d).get('artifacts', [])`. -/
def inputArts (t : Template) : List Artifact := ((t.inputs.getD {}).artifacts).getD []

/-- The output artifacts list of a template. -/
def outputArts (t : Template) : List Artifact := ((t.outputs.getD {}).artifacts).getD []

/-- The input parameters list of a template (defaulting to empty). -/
def inputParams (t : Template) : List Parameter := ((t.inputs.getD {}).parameters).getD []

/-- The output parameters list of a template (defaulting to empty). -/
def outputParams (t : Template) : List Parameter := ((t.outputs.getD {}).parameters).getD []

/-- The volume mount entry appended for an input artifact (lines 640-645). -/
def mkInputMount (dvn : Str) (a : Artifact) : VolumeMount :=
  { mountPath := dirname (a.path.getD []),
    name := dvn,
    subPath := "\x7b\x7binputs.parameters.".data ++ (a.name ++ subpath_parameter_name_suffix) ++ "\x7d\x7d".data,
    readOnly := some true }

/-- The input parameter appended for an input artifact (lines 646-648). -/
def mkInputParam (a : Artifact) : Parameter :=
  { name := a.name ++ subpath_parameter_name_suffix }

/-- The volume mount entry appended for an output artifact (lines 664-668):
no readOnly key. -/
def mkOutputMount (dvn edd : Str) (a : Artifact) : VolumeMount :=
  { mountPath := dirname (a.path.getD []),
    name := dvn,
    subPath := edd ++ a.name }

/-- The output parameter appended for an output artifact (lines 669-672). -/
def mkOutputParam (edd : Str) (a : Artifact) : Parameter :=
  { name := a.name ++ subpath_parameter_name_suffix, value := some (edd ++ a.name) }

/-- Lines 635-648: process the input artifacts of a container template,
accumulating volume mounts, input parameters and the artifact file-name set.
`input_artifact['path']` raises KeyError when the key is absent. -/
def processContainerArtifactsIn (dvn : Str) :
    List Artifact → List VolumeMount → List Parameter → List Str →
    Except Err (List VolumeMount × List Parameter × List Str)
  | [], ms, ps, ns => .ok (ms, ps, ns)
  | a :: rest, ms, ps, ns =>
    match a.path with
    | none => .error (.keyError "path".data)
    | some p =>
      processContainerArtifactsIn dvn rest
        (ms ++ [mkInputMount dvn a])
        (ps ++ [mkInputParam a])
        (addName ns (basename p))

/-- Lines 657-672: process the output artifacts of a container template. -/
def processContainerArtifactsOut (dvn edd : Str) :
    List Artifact → List VolumeMount → List Parameter → List Str →
    Except Err (List VolumeMount × List Parameter × List Str)
  | [], ms, ps, ns => .ok (ms, ps, ns)
  | a :: rest, ms, ps, ns =>
    match a.path with
    | none => .error (.keyError "path".data)
    | some p =>
      processContainerArtifactsOut dvn edd rest
        (ms ++ [mkOutputMount dvn edd a])
        (ps ++ [mkOutputParam edd a])
        (addName ns (basename p))

/-- Lines 626-673: rewrite one container-or-script template.  Returns the
rewritten template, the updated file-name set and which value line 629 bound
`container_spec` to.  When the resolved container spec is the steps list, the
`setdefault('volumeMounts', [])` calls at lines 634 and 656 would be
attribute errors on a list and fire as soon as the template has input or
output artifacts. -/
def rewriteContainerTemplate (dvn edd : Str) (t : Template) (ns : List Str) :
    Except Err (Template × List Str × CSKind) :=
  match t.container with
  | none => .error (.keyError "container".data)
  | some cs =>
    if csTruthy cs then
      let ia := inputArts t
      let step1 : Except Err (Option IOSpec × Option (List VolumeMount) × List Str) :=
        if ia = [] then .ok (t.inputs, cs.volumeMounts, ns)
        else
          match processContainerArtifactsIn dvn ia (cs.volumeMounts.getD []) (inputParams t) ns with
          | .error e => .error e
          | .ok (ms, ps, ns1) =>
            .ok (some { artifacts := (t.inputs.getD {}).artifacts, parameters := some ps },
                 some ms, ns1)
      match step1 with
      | .error e => .error e
      | .ok (ins1, vm1, ns1) =>
        let oa := outputArts t
        if oa = [] then
          .ok ({ t with inputs := ins1, container := some { cs with volumeMounts := vm1 } },
               ns1, .dict)
        else
          match processContainerArtifactsOut dvn edd oa (vm1.getD []) (outputParams t) ns1 with
          | .error e => .error e
          | .ok (ms2, ps2, ns2) =>
            let t2 : Template :=
              { t with
                inputs := ins1,
                outputs := some { artifacts := none, parameters := some ps2 },
                container := some { cs with volumeMounts := some ms2 } }
            .ok (t2, ns2, .dict)
    else
      match t.steps with
      | none => .error (.keyError "steps".data)
      | some _ =>
        if inputArts t = [] then
          if outputArts t = [] then .ok (t, ns, .stepsList)
          else .error .attributeError
        else .error .attributeError

/-- Pass 1 (lines 626-673) over the template list, threading the file-name
set and the last value of the `container_spec` variable together with the
index of the template it belongs to. -/
def pass1 (dvn edd : Str) :
    List Template → List Str → Option (Nat × CSKind) → Nat →
    Except Err (List Template × List Str × Option (Nat × CSKind))
  | [], ns, last, _ => .ok ([], ns, last)
  | t :: rest, ns, last, idx =>
    if t.container.isSome || t.script then
      match rewriteContainerTemplate dvn edd t ns with
      | .error e => .error e
      | .ok (t1, ns1, kind) =>
        match pass1 dvn edd rest ns1 (some (idx, kind)) (idx + 1) with
        | .error e => .error e
        | .ok (ts1, ns2, last2) => .ok (t1 :: ts1, ns2, last2)
    else
      match pass1 dvn edd rest ns last (idx + 1) with
      | .error e => .error e
      | .ok (ts1, ns2, last2) => .ok (t :: ts1, ns2, last2)

/-- Lines 684 and 696 read the `container_spec` variable left over from the
first loop: NameError if it was never assigned, AttributeError if it is the
steps list (`setdefault` on a list). -/
def requireCS (last : Option (Nat × CSKind)) : Except Err Unit :=
  match last with
  | none => .error .nameError
  | some (_, .dict) => .ok ()
  | some (_, .stepsList) => .error .attributeError

/-- The parameter appended for a DAG/steps input artifact (lines 686-689). -/
def mkSubpathParam (a : Artifact) : Parameter :=
  { name := a.name ++ subpath_parameter_name_suffix }

/-- Lines 697-705: DAG/steps output artifacts must carry `from` (KeyError
otherwise); the appended output parameter's valueFrom holds the translated
reference. -/
def processDagOutputs : List Artifact → List Parameter → Except Err (List Parameter)
  | [], ps => .ok ps
  | a :: rest, ps =>
    match a.fromRef with
    | none => .error (.keyError "from".data)
    | some f =>
      processDagOutputs rest
        (ps ++ [{ name := a.name ++ subpath_parameter_name_suffix,
                  valueFrom := some (convert_artifact_reference_to_parameter_reference f) }])

/-- The argument artifacts of a task. -/
def argArts (task : DagTask) : List Artifact := ((task.arguments.getD {}).artifacts).getD []

/-- The argument parameters of a task (defaulting to empty). -/
def argParams (task : DagTask) : List Parameter := ((task.arguments.getD {}).parameters).getD []

/-- Lines 713-720: each artifact argument must carry `from`, otherwise
NotImplementedError; the appended parameter argument's value is the
translated reference. -/
def processArgArtifacts : List Artifact → List Parameter → Except Err (List Parameter)
  | [], ps => .ok ps
  | a :: rest, ps =>
    match a.fromRef with
    | none => .error .notImplementedError
    | some f =>
      processArgArtifacts rest
        (ps ++ [{ name := a.name ++ subpath_parameter_name_suffix,
                  value := some (convert_artifact_reference_to_parameter_reference f) }])

/-- Lines 709-721: rewrite one task or step. -/
def rewriteTask (task : DagTask) : Except Err DagTask :=
  let aa := argArts task
  if aa = [] then .ok task
  else
    match processArgArtifacts aa (argParams task) with
    | .error e => .error e
    | .ok ps =>
      .ok { task with arguments := some { artifacts := (task.arguments.getD {}).artifacts,
                                          parameters := some ps } }

/-- Rewrite a task list in order, stopping at the first error. -/
def rewriteTasksList : List DagTask → Except Err (List DagTask)
  | [] => .ok []
  | task :: rest =>
    match rewriteTask task with
    | .error e => .error e
    | .ok task1 =>
      match rewriteTasksList rest with
      | .error e => .error e
      | .ok rest1 => .ok (task1 :: rest1)

/-- Rewrite the step groups in order. -/
def rewriteGroups : List (List DagTask) → Except Err (List (List DagTask))
  | [] => .ok []
  | g :: rest =>
    match rewriteTasksList g with
    | .error e => .error e
    | .ok g1 =>
      match rewriteGroups rest with
      | .error e => .error e
      | .ok rest1 => .ok (g1 :: rest1)

/-- Lines 681-689: the input-artifact part of a DAG/steps template. -/
def dagInputsStep (last : Option (Nat × CSKind)) (t : Template) :
    Except Err (Option IOSpec × Bool) :=
  if inputArts t = [] then .ok (t.inputs, false)
  else
    match requireCS last with
    | .error e => .error e
    | .ok _ =>
      .ok (some { artifacts := (t.inputs.getD {}).artifacts,
                  parameters := some (inputParams t ++ (inputArts t).map mkSubpathParam) },
           true)

/-- Lines 693-706: the output-artifact part of a DAG/steps template. -/
def dagOutputsStep (last : Option (Nat × CSKind)) (t : Template) :
    Except Err (Option IOSpec × Bool) :=
  if outputArts t = [] then .ok (t.outputs, false)
  else
    match requireCS last with
    | .error e => .error e
    | .ok _ =>
      match processDagOutputs (outputArts t) (outputParams t) with
      | .error e => .error e
      | .ok ps => .ok (some { artifacts := (t.outputs.getD {}).artifacts,
                              parameters := some ps }, true)

/-- Lines 709-721 restricted to the DAG tasks. -/
def dagTasksStep (t : Template) : Except Err (Option DagSpec) :=
  match t.dag with
  | none => .ok none
  | some d =>
    match d.tasks with
    | none => .ok (some d)
    | some l =>
      match rewriteTasksList l with
      | .error e => .error e
      | .ok l1 => .ok (some { d with tasks := some l1 })

/-- Lines 709-721 restricted to the flattened step groups. -/
def dagStepsStep (t : Template) : Except Err (Option (List (List DagTask))) :=
  match t.steps with
  | none => .ok none
  | some gs =>
    match rewriteGroups gs with
    | .error e => .error e
    | .ok gs1 => .ok (some gs1)

/-- Lines 676-721: rewrite one DAG/steps template.  The returned flag records
whether one of the `container_spec.setdefault('volumeMounts', [])` calls at
lines 684/696 ran. -/
def rewriteDagTemplate (last : Option (Nat × CSKind)) (t : Template) :
    Except Err (Template × Bool) :=
  match dagInputsStep last t with
  | .error e => .error e
  | .ok (ins1, sd1) =>
    match dagOutputsStep last t with
    | .error e => .error e
    | .ok (outs1, sd2) =>
      match dagTasksStep t with
      | .error e => .error e
      | .ok dag1 =>
        match dagStepsStep t with
        | .error e => .error e
        | .ok steps1 =>
          .ok ({ t with inputs := ins1, outputs := outs1, dag := dag1, steps := steps1 },
               sd1 || sd2)

/-- Pass 2 (lines 676-721) over the template list; the flag says whether any
template triggered the leaked `container_spec.setdefault`. -/
def pass2 (last : Option (Nat × CSKind)) :
    List Template → Except Err (List Template × Bool)
  | [] => .ok ([], false)
  | t :: rest =>
    if t.dag.isSome || t.steps.isSome then
      match rewriteDagTemplate last t with
      | .error e => .error e
      | .ok (t1, sd) =>
        match pass2 last rest with
        | .error e => .error e
        | .ok (ts1, sd2) => .ok (t1 :: ts1, sd || sd2)
    else
      match pass2 last rest with
      | .error e => .error e
      | .ok (ts1, sd2) => .ok (t :: ts1, sd2)

/-- The effect of `container_spec.setdefault('volumeMounts', [])` on the
template the leaked variable belongs to. -/
def setdefaultVolumeMounts (t : Template) : Template :=
  match t.container with
  | some cs => { t with container := some { cs with volumeMounts := some (cs.volumeMounts.getD []) } }
  | none => t

/-- Apply a function to the list element at the given index. -/
def modifyAt {α : Type} (f : α → α) : Nat → List α → List α
  | _, [] => []
  | 0, x :: rest => f x :: rest
  | n + 1, x :: rest => x :: modifyAt f n rest

/-- Apply the leaked setdefault to the last container template when pass 2
triggered it. -/
def applySetdefault (last : Option (Nat × CSKind)) (ts : List Template) : List Template :=
  match last with
  | some (i, CSKind.dict) => modifyAt setdefaultVolumeMounts i ts
  | _ => ts

/-- The workflow-level constant artifact arguments (line 730). -/
def wfArgArtifacts (w : Workflow) : List Artifact :=
  ((w.spec.arguments.getD {}).artifacts).getD []

deriving instance DecidableEq for Except

/-- The outcome of calling rewrite_data_passing: the returned value or the
raised error, the warnings emitted (line 727: at most one, carrying the set
of distinct artifact file names), and the post-call state of the two
caller-supplied arguments.  The workflow is deep-copied at line 598, so the
caller's workflow is unchanged; the volume dict is NOT copied and line 608
overwrites its name key in place before any failure can occur. -/
structure RewriteOutcome where
  result : Except Err Workflow
  warnings : List (List Str)
  callerWorkflowAfter : Workflow
  callerVolumeAfter : Volume
deriving DecidableEq, Repr

/-- Line 605: the per-execution data directory under the path prefix. -/
def executionDataDir (pathPrefix : Str) : Str :=
  pathPrefix ++ "\x7b\x7bworkflow.uid\x7d\x7d_\x7b\x7bpod.name\x7d\x7d/".data

/-- Lines 597-734: the full rewrite. -/
def rewrite_data_passing (workflow : Workflow) (volume : Volume)
    (pathPrefix : Str := defaultPathPrefix) : RewriteOutcome :=
  let volume1 : Volume := { volume with name := some data_volume_name }
  match pass1 data_volume_name (executionDataDir pathPrefix) workflow.spec.templates [] none 0 with
  | .error e =>
    { result := .error e, warnings := [],
      callerWorkflowAfter := workflow, callerVolumeAfter := volume1 }
  | .ok (ts1, ns, last) =>
    match pass2 last ts1 with
    | .error e =>
      { result := .error e, warnings := [],
        callerWorkflowAfter := workflow, callerVolumeAfter := volume1 }
    | .ok (ts2, needSd) =>
      let ts3 := if needSd then applySetdefault last ts2 else ts2
      let warns := if ns.length > 1 then [ns] else []
      if wfArgArtifacts workflow = [] then
        { result := .ok { spec := { templates := ts3,
                                    volumes := some (workflow.spec.volumes.getD [] ++ [volume1]),
                                    arguments := workflow.spec.arguments } },
          warnings := warns,
          callerWorkflowAfter := workflow, callerVolumeAfter := volume1 }
      else
        { result := .error .notImplementedError, warnings := warns,
          callerWorkflowAfter := workflow, callerVolumeAfter := volume1 }

/-- Lines 736-743: transform_workflow on an already-structured volume just
forwards to rewrite_data_passing. -/
def transform_workflow (workflow : Workflow) (volume : Volume)
    (pathPrefix : Str := defaultPathPrefix) : RewriteOutcome :=
  rewrite_data_passing workflow volume pathPrefix

/-! ## Accessors and derived observations used by the verification -/

/-- Boolean substring test: does `pat` occur as a contiguous segment? -/
def containsSeg (pat : Str) : Str → Bool
  | [] => pat.isEmpty
  | c :: cs => pat.isPrefixOf (c :: cs) || containsSeg pat cs

/-- A template whose container key is present with a truthy (nonempty) dict. -/
def containerTruthy (t : Template) : Bool := (t.container.map csTruthy).getD false

/-- The volume mounts of a template's container spec (empty when absent). -/
def mountsOf (t : Template) : List VolumeMount := ((t.container.getD {}).volumeMounts).getD []

/-- Names of a template's input parameters. -/
def inputParamNames (t : Template) : List Str := (inputParams t).map (fun q => q.name)

/-- Names of a template's output parameters. -/
def outputParamNames (t : Template) : List Str := (outputParams t).map (fun q => q.name)

/-- Names of a template's input artifacts. -/
def inputArtNames (t : Template) : List Str := (inputArts t).map (fun a => a.name)

/-- Names of a template's output artifacts. -/
def outputArtNames (t : Template) : List Str := (outputArts t).map (fun a => a.name)

/-- The `artifacts` entry of the inputs section (with its presence bit). -/
def inputArtifactsOpt (t : Template) : Option (List Artifact) := (t.inputs.getD {}).artifacts

/-- The `artifacts` entry of the outputs section (with its presence bit). -/
def outputArtifactsOpt (t : Template) : Option (List Artifact) := (t.outputs.getD {}).artifacts

/-- The tasks the second pass iterates over for one template (line 709):
the DAG's tasks followed by the flattened step groups. -/
def taskList (t : Template) : List DagTask :=
  ((t.dag.getD {}).tasks).getD [] ++ (t.steps.getD []).flatten

/-- Pure mirror of the file-name accumulation of pass 1 for one artifact
list (lines 637-638 and 660-661). -/
def collectArtNames : List Artifact → List Str → List Str
  | [], ns => ns
  | a :: rest, ns => collectArtNames rest (addName ns (basename (a.path.getD [])))

/-- Pure mirror of the file-name accumulation for one template. -/
def collectTemplateNames (t : Template) (ns : List Str) : List Str :=
  if t.container.isSome || t.script then
    match t.container with
    | some cs =>
      if csTruthy cs then collectArtNames (outputArts t) (collectArtNames (inputArts t) ns)
      else ns
    | none => ns
  else ns

/-- Pure mirror of the file-name accumulation over the whole template list:
the distinct artifact file basenames in first-seen order. -/
def collectNames : List Template → List Str → List Str
  | [], ns => ns
  | t :: rest, ns => collectNames rest (collectTemplateNames t ns)

/-- Extract the workflow from a successful result (dummy on error). -/
def getOk : Except Err Workflow → Workflow
  | .ok w => w
  | .error _ => { spec := { templates := [] } }

/-! ## Closed forms of the per-template rewrites

These restate what the per-template functions return on success, as total
functions of the input template; the characterization lemmas below prove
they agree with the fallible embedding whenever it succeeds. -/

/-- The parameter appended for a DAG/steps output artifact (lines 700-705),
total form. -/
def mkDagOutParam (a : Artifact) : Parameter :=
  { name := a.name ++ subpath_parameter_name_suffix,
    valueFrom := some (convert_artifact_reference_to_parameter_reference (a.fromRef.getD [])) }

/-- The parameter argument appended for a task's artifact argument
(lines 717-720), total form. -/
def mkArgParam (a : Artifact) : Parameter :=
  { name := a.name ++ subpath_parameter_name_suffix,
    value := some (convert_artifact_reference_to_parameter_reference (a.fromRef.getD [])) }

/-- Closed form of a successful rewriteTask. -/
def rtOut (task : DagTask) : DagTask :=
  if argArts task = [] then task
  else
    { task with arguments := some { artifacts := (task.arguments.getD {}).artifacts,
                                    parameters := some (argParams task ++ (argArts task).map mkArgParam) } }

/-- Closed form of a successful rewriteContainerTemplate in the truthy
container case. -/
def rctOut (dvn edd : Str) (t : Template) (cs : ContainerSpec) : Template :=
  let ia := inputArts t
  let oa := outputArts t
  let vm1 := if ia = [] then cs.volumeMounts
             else some (cs.volumeMounts.getD [] ++ ia.map (mkInputMount dvn))
  let ins1 := if ia = [] then t.inputs
              else some { artifacts := (t.inputs.getD {}).artifacts,
                          parameters := some (inputParams t ++ ia.map mkInputParam) }
  let vm2 := if oa = [] then vm1
             else some (vm1.getD [] ++ oa.map (mkOutputMount dvn edd))
  let outs1 := if oa = [] then t.outputs
               else some { artifacts := none,
                           parameters := some (outputParams t ++ oa.map (mkOutputParam edd)) }
  { t with inputs := ins1, outputs := outs1,
           container := some { cs with volumeMounts := vm2 } }

/-- Closed form of a successful rewriteDagTemplate. -/
def rdtOut (t : Template) : Template :=
  let ia := inputArts t
  let oa := outputArts t
  let ins1 := if ia = [] then t.inputs
              else some { artifacts := (t.inputs.getD {}).artifacts,
                          parameters := some (inputParams t ++ ia.map mkSubpathParam) }
  let outs1 := if oa = [] then t.outputs
               else some { artifacts := (t.outputs.getD {}).artifacts,
                           parameters := some (outputParams t ++ oa.map mkDagOutParam) }
  { t with inputs := ins1, outputs := outs1,
           dag := t.dag.map (fun d => { d with tasks := d.tasks.map (fun l => l.map rtOut) }),
           steps := t.steps.map (fun gs => gs.map (fun g => g.map rtOut)) }

/-! ## Concrete inputs used by counterexamples and witnesses

These realize the end-to-end scenario of the specification: a producer
container template writing artifact `data` at /out/data, a consumer container
template reading it at /in/data, and a DAG wiring them. -/

def prodArtifact : Artifact := { name := "data".data, path := some "/out/data".data }

def prodTemplate : Template :=
  { container := some {}, outputs := some { artifacts := some [prodArtifact] } }

def consArtifact : Artifact := { name := "data".data, path := some "/in/data".data }

def consTemplate : Template :=
  { container := some {}, inputs := some { artifacts := some [consArtifact] } }

def consTaskArg : Artifact :=
  { name := "data".data,
    fromRef := some "\x7b\x7btasks.producer.outputs.artifacts.data\x7d\x7d".data }

def consTask : DagTask := { arguments := some { artifacts := some [consTaskArg] } }

def dagTemplate : Template := { dag := some { tasks := some [{ arguments := none }, consTask] } }

def exWorkflow : Workflow := { spec := { templates := [prodTemplate, consTemplate, dagTemplate] } }

def exVolume : Volume :=
  { name := some "my-volume".data,
    otherFields := [("persistentVolumeClaim".data, "my-claim".data)] }

/-- A steps template carrying the same consumer step, for the steps variant. -/
def stepsTemplate : Template := { steps := some [[consTask]] }

def exWorkflowSteps : Workflow :=
  { spec := { templates := [prodTemplate, consTemplate, stepsTemplate] } }

/-- A template with a script key and no container key. -/
def scriptTemplate : Template := { script := true }

def exWorkflowScript : Workflow := { spec := { templates := [prodTemplate, scriptTemplate] } }

/-- A task passing an artifact argument without a from reference. -/
def fromlessTask : DagTask := { arguments := some { artifacts := some [{ name := "data".data }] } }

def fromlessDagTemplate : Template := { dag := some { tasks := some [fromlessTask] } }

def exWorkflowFromless : Workflow :=
  { spec := { templates := [prodTemplate, fromlessDagTemplate] } }

/-- A workflow declaring top-level constant artifact arguments. -/
def exWorkflowWfArgs : Workflow :=
  { spec := { templates := [prodTemplate],
              arguments := some { artifacts := some [{ name := "data".data }] } } }

/-- A second producer with a different artifact file basename. -/
def prodTemplate2 : Template :=
  { container := some {},
    outputs := some { artifacts := some [{ name := "other".data, path := some "/out2/other".data }] } }

def exWorkflowDivergent : Workflow := { spec := { templates := [prodTemplate, prodTemplate2] } }

/-- A DAG template with an output artifact lifted from a task (via from). -/
def dagOutArtifact : Artifact :=
  { name := "data".data,
    fromRef := some "\x7b\x7btasks.producer.outputs.artifacts.data\x7d\x7d".data }

def dagOutTemplate : Template :=
  { dag := some { tasks := some [] }, outputs := some { artifacts := some [dagOutArtifact] } }

def exWorkflowC7 : Workflow := { spec := { templates := [prodTemplate, dagOutTemplate] } }

theorem reSubFuel_nil (f : Nat) : reSubFuel f [] = [] := by cases f <;> rfl

theorem takeWhile_append_all {l1 l2 : Str} {q : Char → Bool} (h : ∀ a ∈ l1, q a = true) :
    (l1 ++ l2).takeWhile q = l1 ++ l2.takeWhile q := by
  induction l1 with
  | nil => simp
  | cons c cs ih =>
    simp only [List.cons_append, List.takeWhile_cons, h c (by simp), if_true]
    rw [ih fun a ha => h a (by simp [ha])]

theorem no_sep_decomp_of_count {l : Str} (h : l.count '.' < 2) :
    ∀ u w, w ≠ [] → l ≠ u ++ sepChars ++ w := by
  intro u w _ he
  rw [he] at h
  have hs : sepChars.count '.' = 2 := by decide
  simp only [List.count_append, hs] at h
  omega

theorem lastSplit0_eq_none {l : Str} (h : ∀ u w, w ≠ [] → l ≠ u ++ sepChars ++ w) :
    lastSplit0 l = none := by
  induction l with
  | nil => rfl
  | cons c cs ih =>
    have hcs : ∀ u w, w ≠ [] → cs ≠ u ++ sepChars ++ w := by
      intro u w hw he
      exact h (c :: u) w hw (by simp [he])
    unfold lastSplit0
    rw [ih hcs]
    show (if sepChars.isPrefixOf (c :: cs) = true ∧ (c :: cs).drop 11 ≠ [] then
            some (([] : Str), (c :: cs).drop 11) else none) = none
    rw [if_neg]
    rintro ⟨h1, h2⟩
    obtain ⟨t, ht⟩ := List.isPrefixOf_iff_prefix.mp h1
    have hdrop : (c :: cs).drop 11 = t := by
      rw [← ht]; exact List.drop_left' (by decide)
    exact h [] t (hdrop ▸ h2) (by simp [← ht])

theorem lastSplit0_sep {n : Str} (hn : n ≠ []) (hdot : '.' ∉ n) :
    lastSplit0 (sepChars ++ n) = some ([], n) := by
  have hnone : lastSplit0 ("artifacts.".data ++ n) = none := by
    apply lastSplit0_eq_none
    apply no_sep_decomp_of_count
    have h0 : n.count '.' = 0 := List.count_eq_zero.mpr hdot
    have h1 : ("artifacts.".data).count '.' = 1 := by decide
    rw [List.count_append, h1, h0]
    omega
  have hsep : sepChars ++ n = '.' :: ("artifacts.".data ++ n) := rfl
  rw [hsep]
  unfold lastSplit0
  rw [hnone]
  have hpre : sepChars.isPrefixOf ('.' :: ("artifacts.".data ++ n)) = true := by
    rw [← hsep]
    exact List.isPrefixOf_iff_prefix.mpr (List.prefix_append _ _)
  have hdrop : ('.' :: ("artifacts.".data ++ n)).drop 11 = n := by
    rw [← hsep]; exact List.drop_left' (by decide)
  rw [if_pos ⟨hpre, hdrop ▸ hn⟩, hdrop]

theorem lastSplit0_split {p n : Str} (hn : n ≠ []) (hdot : '.' ∉ n) :
    lastSplit0 (p ++ sepChars ++ n) = some (p, n) := by
  induction p with
  | nil => simpa using lastSplit0_sep hn hdot
  | cons c p' ih =>
    have hshape : (c :: p') ++ sepChars ++ n = c :: (p' ++ sepChars ++ n) := by simp
    rw [hshape]
    unfold lastSplit0
    rw [ih]

theorem lastSplit_split {p n : Str} (hp : p ≠ []) (hn : n ≠ []) (hdot : '.' ∉ n) :
    lastSplit (p ++ sepChars ++ n) = some (p, n) := by
  cases p with
  | nil => exact absurd rfl hp
  | cons c p' =>
    have hshape : (c :: p') ++ sepChars ++ n = c :: (p' ++ sepChars ++ n) := by simp
    rw [hshape]
    show (lastSplit0 (p' ++ sepChars ++ n)).map (fun g => (c :: g.1, g.2)) = some (c :: p', n)
    rw [lastSplit0_split hn hdot]
    rfl

theorem tryMatch_token {p n : Str} (hp : p ≠ []) (hn : n ≠ [])
    (hbp : '\x7d' ∉ p) (hbn : '\x7d' ∉ n) (hdot : '.' ∉ n) :
    tryMatch ("\x7b\x7b".data ++ (p ++ sepChars ++ n) ++ "\x7d\x7d".data) =
      some ("\x7b\x7b".data ++ (p ++ ".parameters.".data ++ n ++
              subpath_parameter_name_suffix ++ "\x7d\x7d".data), []) := by
  have hshape : "\x7b\x7b".data ++ (p ++ sepChars ++ n) ++ "\x7d\x7d".data =
      '\x7b' :: '\x7b' :: ((p ++ sepChars ++ n) ++ "\x7d\x7d".data) := by simp
  rw [hshape]
  have hq : ∀ a ∈ p ++ sepChars ++ n, notRBrace a = true := by
    intro a ha
    simp only [List.mem_append] at ha
    have hsep : ∀ b ∈ sepChars, notRBrace b = true := by decide
    rcases ha with ha | ha
    · rcases ha with ha | ha
      · simp [notRBrace]; rintro rfl; exact hbp ha
      · exact hsep a ha
    · simp [notRBrace]; rintro rfl; exact hbn ha
  have htw : ((p ++ sepChars ++ n) ++ "\x7d\x7d".data).takeWhile notRBrace =
      p ++ sepChars ++ n := by
    rw [takeWhile_append_all hq]
    simp [List.takeWhile_cons, notRBrace]
  have hdrop : ((p ++ sepChars ++ n) ++ "\x7d\x7d".data).drop (p ++ sepChars ++ n).length =
      "\x7d\x7d".data := List.drop_left _ _
  unfold tryMatch
  dsimp only
  rw [if_pos ⟨rfl, rfl⟩, htw, hdrop]
  have h2 : "\x7d\x7d".data = '\x7d' :: '\x7d' :: ([] : Str) := rfl
  rw [h2]
  dsimp only
  rw [if_pos ⟨rfl, rfl⟩]
  rw [lastSplit_split hp hn hdot]
  simp

theorem convert_token {p n : Str} (hp : p ≠ []) (hn : n ≠ [])
    (hbp : '\x7d' ∉ p) (hbn : '\x7d' ∉ n) (hdot : '.' ∉ n) :
    convert_artifact_reference_to_parameter_reference
        ("\x7b\x7b".data ++ (p ++ sepChars ++ n) ++ "\x7d\x7d".data) =
      "\x7b\x7b".data ++ (p ++ ".parameters.".data ++ n ++
        subpath_parameter_name_suffix ++ "\x7d\x7d".data) := by
  unfold convert_artifact_reference_to_parameter_reference
  have hshape : "\x7b\x7b".data ++ (p ++ sepChars ++ n) ++ "\x7d\x7d".data =
      '\x7b' :: '\x7b' :: (p ++ sepChars ++ n ++ "\x7d\x7d".data) := by simp
  rw [hshape]
  have hlen : ('\x7b' :: '\x7b' :: (p ++ sepChars ++ n ++ "\x7d\x7d".data)).length =
      (p ++ sepChars ++ n ++ "\x7d\x7d".data).length + 1 + 1 := by simp
  rw [hlen]
  show reSubFuel ((p ++ sepChars ++ n ++ "\x7d\x7d".data).length + 1 + 1)
      ('\x7b' :: ('\x7b' :: (p ++ sepChars ++ n ++ "\x7d\x7d".data))) = _
  rw [reSubFuel]
  rw [show '\x7b' :: '\x7b' :: (p ++ sepChars ++ n ++ "\x7d\x7d".data) =
      "\x7b\x7b".data ++ (p ++ sepChars ++ n) ++ "\x7d\x7d".data from by simp]
  rw [tryMatch_token hp hn hbp hbn hdot]
  dsimp only
  rw [reSubFuel_nil]
  simp

theorem reSubFuel_no_match : ∀ (s : Str), (∀ i, i < s.length → tryMatch (s.drop i) = none) →
    reSubFuel s.length s = s
  | [], _ => rfl
  | c :: cs, h => by
    have h0 : tryMatch (c :: cs) = none := h 0 (by simp)
    show reSubFuel (cs.length + 1) (c :: cs) = c :: cs
    rw [reSubFuel, h0]
    exact congrArg (c :: ·) (reSubFuel_no_match cs (fun i hi => h (i + 1) (by simpa using hi)))

theorem convert_no_token {s : Str} (h : ∀ i, i < s.length → tryMatch (s.drop i) = none) :
    convert_artifact_reference_to_parameter_reference s = s :=
  reSubFuel_no_match s h

theorem rdp_caller_after (w : Workflow) (v : Volume) (pp : Str) :
    (rewrite_data_passing w v pp).callerWorkflowAfter = w ∧
    (rewrite_data_passing w v pp).callerVolumeAfter = { v with name := some data_volume_name } := by
  constructor <;>
    (unfold rewrite_data_passing; dsimp only; repeat' split) <;> rfl

/-- C1: the claim is refuted: rewrite_data_passing (and transform_workflow)
mutates the caller-supplied volume descriptor in place, overwriting its name
key (line 608) before the workflow is processed, so the volume descriptor is
not structurally equal to its pre-call snapshot. -/
theorem C1_counterexample :
    (rewrite_data_passing exWorkflow exVolume defaultPathPrefix).callerVolumeAfter ≠ exVolume ∧
    (transform_workflow exWorkflow exVolume defaultPathPrefix).callerVolumeAfter ≠ exVolume := by
  constructor <;> decide

/-- C1 amended: after rewrite_data_passing (or transform_workflow) returns,
the caller's workflow tree is structurally equal to its pre-call snapshot
(it is deep-copied at entry), but the caller's volume descriptor has its
name field overwritten in place to the fixed shared-volume name
data-storage; all its other fields are preserved, and it equals its pre-call
snapshot only when its name was already data-storage. -/
theorem C1_theorem (w : Workflow) (v : Volume) (pp : Str) :
    (rewrite_data_passing w v pp).callerWorkflowAfter = w ∧
    (rewrite_data_passing w v pp).callerVolumeAfter = { v with name := some data_volume_name } ∧
    (transform_workflow w v pp).callerWorkflowAfter = w ∧
    (transform_workflow w v pp).callerVolumeAfter = { v with name := some data_volume_name } := by
  obtain ⟨h1, h2⟩ := rdp_caller_after w v pp
  exact ⟨h1, h2, h1, h2⟩

/-- C5: the claim is refuted: the greedy first group of the regex splits a
token at the LAST '.artifacts.' occurrence, so for prefix a and name
b.artifacts.c (both free of close braces) the produced string differs from
the claimed replacement, and it still contains an '.artifacts.' segment. -/
theorem C5_counterexample :
    convert_artifact_reference_to_parameter_reference
        "\x7b\x7ba.artifacts.b.artifacts.c\x7d\x7d".data ≠
      "\x7b\x7ba.parameters.b.artifacts.c-subpath\x7d\x7d".data ∧
    containsSeg sepChars
      (convert_artifact_reference_to_parameter_reference
        "\x7b\x7ba.artifacts.b.artifacts.c\x7d\x7d".data) = true := by
  constructor <;> decide

/-- C5 amended: a well-formed token (brace pair, prefix, '.artifacts.',
name, brace pair; prefix and name nonempty and free of close braces) whose
name part contains no dot is replaced by the parameter form of the same
prefix and name with the -subpath suffix, the surrounding text untouched
(the regex splits at the last '.artifacts.' occurrence, so a name containing
its own '.artifacts.' segment moves the split); a string with no matching
token anywhere is returned unchanged; and on a grammar-typical reference the
result contains '.parameters.' and the suffixed name and no '.artifacts.'
segment. -/
theorem C5_theorem :
    (∀ p n : Str, p ≠ [] → n ≠ [] → '\x7d' ∉ p → '\x7d' ∉ n → '.' ∉ n →
      convert_artifact_reference_to_parameter_reference
          ("\x7b\x7b".data ++ (p ++ sepChars ++ n) ++ "\x7d\x7d".data) =
        "\x7b\x7b".data ++ (p ++ ".parameters.".data ++ n ++
          subpath_parameter_name_suffix ++ "\x7d\x7d".data)) ∧
    (∀ s : Str, (∀ i, i < s.length → tryMatch (s.drop i) = none) →
      convert_artifact_reference_to_parameter_reference s = s) ∧
    (containsSeg ".parameters.".data
        (convert_artifact_reference_to_parameter_reference
          "\x7b\x7btasks.producer.outputs.artifacts.data\x7d\x7d".data) = true ∧
     containsSeg ("data".data ++ subpath_parameter_name_suffix)
        (convert_artifact_reference_to_parameter_reference
          "\x7b\x7btasks.producer.outputs.artifacts.data\x7d\x7d".data) = true ∧
     containsSeg sepChars
        (convert_artifact_reference_to_parameter_reference
          "\x7b\x7btasks.producer.outputs.artifacts.data\x7d\x7d".data) = false) :=
  ⟨fun _ _ hp hn hbp hbn hdot => convert_token hp hn hbp hbn hdot,
   fun _ h => convert_no_token h,
   by decide, by decide, by decide⟩

/-- C5 witness: the amended theorem applied to the end-to-end reference of
the specification and to a reference-free string. -/
theorem C5_witness :
    convert_artifact_reference_to_parameter_reference
        ("\x7b\x7b".data ++ ("tasks.producer.outputs".data ++ sepChars ++ "data".data) ++ "\x7d\x7d".data) =
      "\x7b\x7b".data ++ ("tasks.producer.outputs".data ++ ".parameters.".data ++ "data".data ++
        subpath_parameter_name_suffix ++ "\x7d\x7d".data) ∧
    convert_artifact_reference_to_parameter_reference "no references here".data =
      "no references here".data :=
  ⟨C5_theorem.1 "tasks.producer.outputs".data "data".data
      (by decide) (by decide) (by decide) (by decide) (by decide),
   C5_theorem.2.1 "no references here".data (by decide)⟩

theorem processIn_ok {dvn : Str} {arts : List Artifact} {ms : List VolumeMount}
    {ps : List Parameter} {ns : List Str} {out} :
    processContainerArtifactsIn dvn arts ms ps ns = .ok out →
    out = (ms ++ arts.map (mkInputMount dvn), ps ++ arts.map mkInputParam,
           collectArtNames arts ns) ∧
    ∀ a ∈ arts, a.path.isSome := by
  induction arts generalizing ms ps ns with
  | nil =>
    intro h
    simp only [processContainerArtifactsIn, Except.ok.injEq] at h
    subst h
    simp [collectArtNames]
  | cons a rest ih =>
    intro h
    unfold processContainerArtifactsIn at h
    cases hp : a.path with
    | none => rw [hp] at h; exact absurd h (by simp)
    | some p =>
      rw [hp] at h
      obtain ⟨h1, h2⟩ := ih h
      refine ⟨?_, ?_⟩
      · rw [h1]
        simp [collectArtNames, hp]
      · intro b hb
        rcases List.mem_cons.mp hb with rfl | hb
        · simp [hp]
        · exact h2 b hb

theorem processOut_ok {dvn edd : Str} {arts : List Artifact} {ms : List VolumeMount}
    {ps : List Parameter} {ns : List Str} {out} :
    processContainerArtifactsOut dvn edd arts ms ps ns = .ok out →
    out = (ms ++ arts.map (mkOutputMount dvn edd), ps ++ arts.map (mkOutputParam edd),
           collectArtNames arts ns) ∧
    ∀ a ∈ arts, a.path.isSome := by
  induction arts generalizing ms ps ns with
  | nil =>
    intro h
    simp only [processContainerArtifactsOut, Except.ok.injEq] at h
    subst h
    simp [collectArtNames]
  | cons a rest ih =>
    intro h
    unfold processContainerArtifactsOut at h
    cases hp : a.path with
    | none => rw [hp] at h; exact absurd h (by simp)
    | some p =>
      rw [hp] at h
      obtain ⟨h1, h2⟩ := ih h
      refine ⟨?_, ?_⟩
      · rw [h1]
        simp [collectArtNames, hp]
      · intro b hb
        rcases List.mem_cons.mp hb with rfl | hb
        · simp [hp]
        · exact h2 b hb

theorem processDagOut_ok {arts : List Artifact} {ps : List Parameter} {out} :
    processDagOutputs arts ps = .ok out →
    out = ps ++ arts.map mkDagOutParam ∧ ∀ a ∈ arts, a.fromRef.isSome := by
  induction arts generalizing ps with
  | nil =>
    intro h
    simp only [processDagOutputs, Except.ok.injEq] at h
    subst h
    simp
  | cons a rest ih =>
    intro h
    unfold processDagOutputs at h
    cases hf : a.fromRef with
    | none => rw [hf] at h; exact absurd h (by simp)
    | some f =>
      rw [hf] at h
      obtain ⟨h1, h2⟩ := ih h
      refine ⟨?_, ?_⟩
      · rw [h1]
        simp [mkDagOutParam, hf]
      · intro b hb
        rcases List.mem_cons.mp hb with rfl | hb
        · simp [hf]
        · exact h2 b hb

theorem processArg_ok {arts : List Artifact} {ps : List Parameter} {out} :
    processArgArtifacts arts ps = .ok out →
    out = ps ++ arts.map mkArgParam ∧ ∀ a ∈ arts, a.fromRef.isSome := by
  induction arts generalizing ps with
  | nil =>
    intro h
    simp only [processArgArtifacts, Except.ok.injEq] at h
    subst h
    simp
  | cons a rest ih =>
    intro h
    unfold processArgArtifacts at h
    cases hf : a.fromRef with
    | none => rw [hf] at h; exact absurd h (by simp)
    | some f =>
      rw [hf] at h
      obtain ⟨h1, h2⟩ := ih h
      refine ⟨?_, ?_⟩
      · rw [h1]
        simp [mkArgParam, hf]
      · intro b hb
        rcases List.mem_cons.mp hb with rfl | hb
        · simp [hf]
        · exact h2 b hb

theorem rt_ok {task task' : DagTask} :
    rewriteTask task = .ok task' →
    task' = rtOut task ∧ ∀ a ∈ argArts task, a.fromRef.isSome := by
  intro h
  unfold rewriteTask at h
  by_cases ha : argArts task = []
  · rw [if_pos ha] at h
    simp only [Except.ok.injEq] at h
    subst h
    refine ⟨by rw [rtOut, if_pos ha], ?_⟩
    intro a hmem
    rw [ha] at hmem
    exact absurd hmem (List.not_mem_nil a)
  · rw [if_neg ha] at h
    cases hp : processArgArtifacts (argArts task) (argParams task) with
    | error e => rw [hp] at h; exact absurd h (by simp)
    | ok ps =>
      rw [hp] at h
      simp only [Except.ok.injEq] at h
      subst h
      obtain ⟨h1, h2⟩ := processArg_ok hp
      subst h1
      exact ⟨by rw [rtOut, if_neg ha], h2⟩

theorem rt_no_ok {task : DagTask} {a : Artifact} (ha : a ∈ argArts task)
    (hf : a.fromRef = none) : ∀ out, rewriteTask task ≠ .ok out := by
  intro out h
  obtain ⟨_, h2⟩ := rt_ok h
  have := h2 a ha
  rw [hf] at this
  exact absurd this (by simp)

theorem rtl_ok {l l' : List DagTask} :
    rewriteTasksList l = .ok l' →
    l' = l.map rtOut ∧ ∀ task ∈ l, rewriteTask task = .ok (rtOut task) := by
  induction l generalizing l' with
  | nil =>
    intro h
    simp only [rewriteTasksList, Except.ok.injEq] at h
    subst h
    simp
  | cons task rest ih =>
    intro h
    unfold rewriteTasksList at h
    cases h1 : rewriteTask task with
    | error e => rw [h1] at h; exact absurd h (by simp)
    | ok task1 =>
      rw [h1] at h
      cases h2 : rewriteTasksList rest with
      | error e => rw [h2] at h; exact absurd h (by simp)
      | ok rest1 =>
        rw [h2] at h
        simp only [Except.ok.injEq] at h
        subst h
        obtain ⟨ih1, ih2⟩ := ih h2
        obtain ⟨he, _⟩ := rt_ok h1
        subst he ih1
        refine ⟨rfl, ?_⟩
        intro x hx
        rcases List.mem_cons.mp hx with rfl | hx
        · exact h1
        · exact ih2 x hx

theorem rgroups_ok {gs gs' : List (List DagTask)} :
    rewriteGroups gs = .ok gs' →
    gs' = gs.map (fun g => g.map rtOut) ∧
    ∀ g ∈ gs, ∀ task ∈ g, rewriteTask task = .ok (rtOut task) := by
  induction gs generalizing gs' with
  | nil =>
    intro h
    simp only [rewriteGroups, Except.ok.injEq] at h
    subst h
    simp
  | cons g rest ih =>
    intro h
    unfold rewriteGroups at h
    cases h1 : rewriteTasksList g with
    | error e => rw [h1] at h; exact absurd h (by simp)
    | ok g1 =>
      rw [h1] at h
      cases h2 : rewriteGroups rest with
      | error e => rw [h2] at h; exact absurd h (by simp)
      | ok rest1 =>
        rw [h2] at h
        simp only [Except.ok.injEq] at h
        subst h
        obtain ⟨ih1, ih2⟩ := ih h2
        obtain ⟨he, hg⟩ := rtl_ok h1
        subst he ih1
        refine ⟨rfl, ?_⟩
        intro x hx
        rcases List.mem_cons.mp hx with rfl | hx
        · exact hg
        · exact ih2 x hx

theorem rct_err_no_container {dvn edd : Str} {t : Template} {ns : List Str}
    (hc : t.container = none) :
    rewriteContainerTemplate dvn edd t ns = .error (.keyError "container".data) := by
  unfold rewriteContainerTemplate
  rw [hc]

theorem rct_ok_dict {dvn edd : Str} {t : Template} {ns : List Str} {cs : ContainerSpec}
    {t' : Template} {ns' : List Str} {k : CSKind}
    (hc : t.container = some cs) (htr : csTruthy cs = true) :
    rewriteContainerTemplate dvn edd t ns = .ok (t', ns', k) →
    t' = rctOut dvn edd t cs ∧ k = .dict ∧
    ns' = collectArtNames (outputArts t) (collectArtNames (inputArts t) ns) ∧
    (∀ a ∈ inputArts t, a.path.isSome) ∧ (∀ a ∈ outputArts t, a.path.isSome) := by
  intro h
  unfold rewriteContainerTemplate at h
  rw [hc] at h
  dsimp only at h
  rw [if_pos htr] at h
  by_cases hia : inputArts t = []
  · rw [if_pos hia] at h
    dsimp only at h
    by_cases hoa : outputArts t = []
    · rw [if_pos hoa] at h
      simp only [Except.ok.injEq, Prod.mk.injEq] at h
      obtain ⟨ht', hns', hk⟩ := h
      refine ⟨?_, hk.symm, ?_, ?_, ?_⟩
      · rw [← ht']
        simp [rctOut, hia, hoa]
      · rw [← hns', hia, hoa]
        simp [collectArtNames]
      · rw [hia]; simp
      · rw [hoa]; simp
    · rw [if_neg hoa] at h
      cases hpo : processContainerArtifactsOut dvn edd (outputArts t)
          ((cs.volumeMounts).getD []) (outputParams t) ns with
      | error e => rw [hpo] at h; exact absurd h (by simp)
      | ok out =>
        rw [hpo] at h
        obtain ⟨ho1, ho2⟩ := processOut_ok hpo
        subst ho1
        simp only [Except.ok.injEq, Prod.mk.injEq] at h
        obtain ⟨ht', hns', hk⟩ := h
        refine ⟨?_, hk.symm, ?_, ?_, ho2⟩
        · rw [← ht']
          simp [rctOut, hia, hoa]
        · rw [← hns', hia]
          simp [collectArtNames]
        · rw [hia]; simp
  · rw [if_neg hia] at h
    cases hpi : processContainerArtifactsIn dvn (inputArts t)
        ((cs.volumeMounts).getD []) (inputParams t) ns with
    | error e => rw [hpi] at h; exact absurd h (by simp)
    | ok outi =>
      rw [hpi] at h
      obtain ⟨hi1, hi2⟩ := processIn_ok hpi
      subst hi1
      dsimp only at h
      simp only [Option.getD_some] at h
      by_cases hoa : outputArts t = []
      · rw [if_pos hoa] at h
        simp only [Except.ok.injEq, Prod.mk.injEq] at h
        obtain ⟨ht', hns', hk⟩ := h
        refine ⟨?_, hk.symm, ?_, hi2, ?_⟩
        · rw [← ht']
          simp [rctOut, hia, hoa]
        · rw [← hns', hoa]
          simp [collectArtNames]
        · rw [hoa]; simp
      · rw [if_neg hoa] at h
        cases hpo : processContainerArtifactsOut dvn edd (outputArts t)
            ((cs.volumeMounts).getD [] ++ (inputArts t).map (mkInputMount dvn))
            (outputParams t) (collectArtNames (inputArts t) ns) with
        | error e => rw [hpo] at h; exact absurd h (by simp)
        | ok outo =>
          rw [hpo] at h
          obtain ⟨ho1, ho2⟩ := processOut_ok hpo
          subst ho1
          simp only [Except.ok.injEq, Prod.mk.injEq] at h
          obtain ⟨ht', hns', hk⟩ := h
          refine ⟨?_, hk.symm, ?_, hi2, ho2⟩
          · rw [← ht']
            simp [rctOut, hia, hoa]
          · rw [← hns']

theorem rct_ok_steps {dvn edd : Str} {t : Template} {ns : List Str} {cs : ContainerSpec}
    {t' : Template} {ns' : List Str} {k : CSKind}
    (hc : t.container = some cs) (htr : csTruthy cs = false) :
    rewriteContainerTemplate dvn edd t ns = .ok (t', ns', k) →
    t' = t ∧ k = .stepsList ∧ ns' = ns ∧ inputArts t = [] ∧ outputArts t = [] := by
  intro h
  unfold rewriteContainerTemplate at h
  rw [hc] at h
  dsimp only at h
  rw [if_neg (by rw [htr]; exact Bool.false_ne_true)] at h
  cases hst : t.steps with
  | none => rw [hst] at h; exact absurd h (by simp)
  | some gs =>
    rw [hst] at h
    dsimp only at h
    by_cases hia : inputArts t = []
    · rw [if_pos hia] at h
      by_cases hoa : outputArts t = []
      · rw [if_pos hoa] at h
        simp only [Except.ok.injEq, Prod.mk.injEq] at h
        exact ⟨h.1.symm, h.2.2.symm, h.2.1.symm, hia, hoa⟩
      · rw [if_neg hoa] at h; exact absurd h (by simp)
    · rw [if_neg hia] at h; exact absurd h (by simp)

theorem rct_ok_names {dvn edd : Str} {t : Template} {ns : List Str}
    {t' : Template} {ns' : List Str} {k : CSKind}
    (hg : (t.container.isSome || t.script) = true) :
    rewriteContainerTemplate dvn edd t ns = .ok (t', ns', k) →
    ns' = collectTemplateNames t ns := by
  intro h
  cases hc : t.container with
  | none => rw [rct_err_no_container hc] at h; exact absurd h (by simp)
  | some cs =>
    by_cases htr : csTruthy cs = true
    · obtain ⟨_, _, hns, _, _⟩ := rct_ok_dict hc htr h
      rw [hns, collectTemplateNames, if_pos hg, hc]
      dsimp only
      rw [if_pos htr]
    · obtain ⟨_, _, hns, _, _⟩ := rct_ok_steps hc (Bool.not_eq_true _ ▸ htr) h
      rw [hns, collectTemplateNames, if_pos hg, hc]
      dsimp only
      rw [if_neg htr]

theorem rct_preserves {dvn edd : Str} {t : Template} {ns : List Str}
    {t' : Template} {ns' : List Str} {k : CSKind} :
    rewriteContainerTemplate dvn edd t ns = .ok (t', ns', k) →
    t'.dag = t.dag ∧ t'.steps = t.steps ∧ t'.script = t.script := by
  intro h
  cases hc : t.container with
  | none => rw [rct_err_no_container hc] at h; exact absurd h (by simp)
  | some cs =>
    by_cases htr : csTruthy cs = true
    · obtain ⟨ht', _, _, _, _⟩ := rct_ok_dict hc htr h
      subst ht'
      simp [rctOut]
    · obtain ⟨ht', _, _, _, _⟩ := rct_ok_steps hc (Bool.not_eq_true _ ▸ htr) h
      subst ht'
      exact ⟨rfl, rfl, rfl⟩

theorem dagInputsStep_ok {last : Option (Nat × CSKind)} {t : Template}
    {ins1 : Option IOSpec} {sd1 : Bool} :
    dagInputsStep last t = .ok (ins1, sd1) →
    (inputArts t = [] ∧ ins1 = t.inputs ∧ sd1 = false) ∨
    (inputArts t ≠ [] ∧ requireCS last = .ok () ∧ sd1 = true ∧
     ins1 = some { artifacts := (t.inputs.getD {}).artifacts,
                   parameters := some (inputParams t ++ (inputArts t).map mkSubpathParam) }) := by
  intro h
  unfold dagInputsStep at h
  by_cases hia : inputArts t = []
  · rw [if_pos hia] at h
    simp only [Except.ok.injEq, Prod.mk.injEq] at h
    exact Or.inl ⟨hia, h.1.symm, h.2.symm⟩
  · rw [if_neg hia] at h
    cases hrc : requireCS last with
    | error e => rw [hrc] at h; exact absurd h (by simp)
    | ok u =>
      rw [hrc] at h
      simp only [Except.ok.injEq, Prod.mk.injEq] at h
      cases u
      exact Or.inr ⟨hia, rfl, h.2.symm, h.1.symm⟩

theorem dagOutputsStep_ok {last : Option (Nat × CSKind)} {t : Template}
    {outs1 : Option IOSpec} {sd2 : Bool} :
    dagOutputsStep last t = .ok (outs1, sd2) →
    ((outputArts t = [] ∧ outs1 = t.outputs ∧ sd2 = false) ∨
     (outputArts t ≠ [] ∧ requireCS last = .ok () ∧ sd2 = true ∧
      outs1 = some { artifacts := (t.outputs.getD {}).artifacts,
                     parameters := some (outputParams t ++ (outputArts t).map mkDagOutParam) })) ∧
    ∀ a ∈ outputArts t, a.fromRef.isSome := by
  intro h
  unfold dagOutputsStep at h
  by_cases hoa : outputArts t = []
  · rw [if_pos hoa] at h
    simp only [Except.ok.injEq, Prod.mk.injEq] at h
    refine ⟨Or.inl ⟨hoa, h.1.symm, h.2.symm⟩, ?_⟩
    rw [hoa]; simp
  · rw [if_neg hoa] at h
    cases hrc : requireCS last with
    | error e => rw [hrc] at h; exact absurd h (by simp)
    | ok u =>
      rw [hrc] at h
      cases hpd : processDagOutputs (outputArts t) (outputParams t) with
      | error e => rw [hpd] at h; exact absurd h (by simp)
      | ok ps =>
        rw [hpd] at h
        obtain ⟨hps, hfrom⟩ := processDagOut_ok hpd
        subst hps
        simp only [Except.ok.injEq, Prod.mk.injEq] at h
        cases u
        exact ⟨Or.inr ⟨hoa, rfl, h.2.symm, h.1.symm⟩, hfrom⟩

theorem dagTasksStep_ok {t : Template} {dag1 : Option DagSpec} :
    dagTasksStep t = .ok dag1 →
    dag1 = t.dag.map (fun d => { d with tasks := d.tasks.map (fun l => l.map rtOut) }) ∧
    ∀ task ∈ ((t.dag.getD {}).tasks).getD [], rewriteTask task = .ok (rtOut task) := by
  intro h
  unfold dagTasksStep at h
  cases hd : t.dag with
  | none =>
    rw [hd] at h
    simp only [Except.ok.injEq] at h
    subst h
    simp
  | some d =>
    rw [hd] at h
    dsimp only at h
    cases hl : d.tasks with
    | none =>
      rw [hl] at h
      dsimp only at h
      simp only [Except.ok.injEq] at h
      subst h
      refine ⟨?_, ?_⟩
      · cases d
        simp_all
      · simp [hl]
    | some l =>
      rw [hl] at h
      dsimp only at h
      cases hr : rewriteTasksList l with
      | error e => rw [hr] at h; exact absurd h (by simp)
      | ok l1 =>
        rw [hr] at h
        obtain ⟨hl1, hall⟩ := rtl_ok hr
        subst hl1
        simp only [Except.ok.injEq] at h
        subst h
        refine ⟨?_, ?_⟩
        · simp [hl]
        · simp only [Option.getD_some, hl]
          exact hall

theorem dagStepsStep_ok {t : Template} {steps1 : Option (List (List DagTask))} :
    dagStepsStep t = .ok steps1 →
    steps1 = t.steps.map (fun gs => gs.map (fun g => g.map rtOut)) ∧
    ∀ g ∈ t.steps.getD [], ∀ task ∈ g, rewriteTask task = .ok (rtOut task) := by
  intro h
  unfold dagStepsStep at h
  cases hs : t.steps with
  | none =>
    rw [hs] at h
    simp only [Except.ok.injEq] at h
    subst h
    simp
  | some gs =>
    rw [hs] at h
    dsimp only at h
    cases hr : rewriteGroups gs with
    | error e => rw [hr] at h; exact absurd h (by simp)
    | ok gs1 =>
      rw [hr] at h
      obtain ⟨hgs1, hall⟩ := rgroups_ok hr
      subst hgs1
      simp only [Except.ok.injEq] at h
      subst h
      exact ⟨by simp, by rw [Option.getD_some]; exact hall⟩

theorem rdt_ok {last : Option (Nat × CSKind)} {t t' : Template} {sd : Bool} :
    rewriteDagTemplate last t = .ok (t', sd) →
    t' = rdtOut t ∧
    (∀ a ∈ outputArts t, a.fromRef.isSome) ∧
    (∀ task ∈ taskList t, rewriteTask task = .ok (rtOut task)) ∧
    ((inputArts t ≠ [] ∨ outputArts t ≠ []) → requireCS last = .ok ()) := by
  intro h
  unfold rewriteDagTemplate at h
  cases h1 : dagInputsStep last t with
  | error e => rw [h1] at h; exact absurd h (by simp)
  | ok r1 =>
    obtain ⟨ins1, sd1⟩ := r1
    rw [h1] at h
    cases h2 : dagOutputsStep last t with
    | error e => rw [h2] at h; exact absurd h (by simp)
    | ok r2 =>
      obtain ⟨outs1, sd2⟩ := r2
      rw [h2] at h
      cases h3 : dagTasksStep t with
      | error e => rw [h3] at h; exact absurd h (by simp)
      | ok dag1 =>
        rw [h3] at h
        cases h4 : dagStepsStep t with
        | error e => rw [h4] at h; exact absurd h (by simp)
        | ok steps1 =>
          rw [h4] at h
          simp only [Except.ok.injEq, Prod.mk.injEq] at h
          obtain ⟨ht', _⟩ := h
          obtain ⟨hdag1, htasks⟩ := dagTasksStep_ok h3
          obtain ⟨hsteps1, hgroups⟩ := dagStepsStep_ok h4
          obtain ⟨houts, hfrom⟩ := dagOutputsStep_ok h2
          have hins := dagInputsStep_ok h1
          refine ⟨?_, hfrom, ?_, ?_⟩
          · rw [← ht']
        
            subst hdag1 hsteps1
            unfold rdtOut
            dsimp only
            congr 1
            · rcases hins with ⟨hia, hi, _⟩ | ⟨hia, _, _, hi⟩
              · rw [if_pos hia, hi]
              · rw [if_neg hia, hi]
            · rcases houts with ⟨hoa, ho, _⟩ | ⟨hoa, _, _, ho⟩
              · rw [if_pos hoa, ho]
              · rw [if_neg hoa, ho]
          · intro task htask
            rcases List.mem_append.mp htask with hmem | hmem
            · exact htasks task hmem
            · obtain ⟨g, hg, hting⟩ := List.mem_flatten.mp hmem
              exact hgroups g hg task hting
          · rintro (hne | hne)
            · rcases hins with ⟨hia, _, _⟩ | ⟨_, hrc, _, _⟩
              · exact absurd hia hne
              · exact hrc
            · rcases houts with ⟨hoa, _, _⟩ | ⟨_, hrc, _, _⟩
              · exact absurd hoa hne
              · exact hrc

theorem pass1_ok_each {dvn edd : Str} {ts : List Template} {ns : List Str}
    {last : Option (Nat × CSKind)} {idx : Nat} {ts' : List Template} {ns' : List Str}
    {last' : Option (Nat × CSKind)} :
    pass1 dvn edd ts ns last idx = .ok (ts', ns', last') →
    ∀ j t, ts.get? j = some t →
      ∃ t', ts'.get? j = some t' ∧
        (((t.container.isSome || t.script) = false ∧ t' = t) ∨
         ((t.container.isSome || t.script) = true ∧
          ∃ ns0 ns1 k, rewriteContainerTemplate dvn edd t ns0 = .ok (t', ns1, k))) := by
  induction ts generalizing ns last idx ts' ns' last' with
  | nil => intro _ j t hj; simp at hj
  | cons t0 rest ih =>
    intro h j t hj
    unfold pass1 at h
    by_cases hg : (t0.container.isSome || t0.script) = true
    · rw [if_pos hg] at h
      cases h1 : rewriteContainerTemplate dvn edd t0 ns with
      | error e => rw [h1] at h; exact absurd h (by simp)
      | ok r1 =>
        obtain ⟨t1, ns1, kind⟩ := r1
        rw [h1] at h
        dsimp only at h
        cases h2 : pass1 dvn edd rest ns1 (some (idx, kind)) (idx + 1) with
        | error e => rw [h2] at h; exact absurd h (by simp)
        | ok r2 =>
          obtain ⟨ts2, ns2, last2⟩ := r2
          rw [h2] at h
          simp only [Except.ok.injEq, Prod.mk.injEq] at h
          obtain ⟨hts', hns2, hlast2⟩ := h
          subst hts'
          subst hns2
          subst hlast2
          cases j with
          | zero =>
            simp only [List.get?] at hj
            cases hj
            exact ⟨t1, rfl, Or.inr ⟨hg, ns, ns1, kind, h1⟩⟩
          | succ j =>
            simp only [List.get?] at hj
            exact ih h2 j t hj
    · rw [if_neg hg] at h
      cases h2 : pass1 dvn edd rest ns last (idx + 1) with
      | error e => rw [h2] at h; exact absurd h (by simp)
      | ok r2 =>
        obtain ⟨ts2, ns2, last2⟩ := r2
        rw [h2] at h
        simp only [Except.ok.injEq, Prod.mk.injEq] at h
        obtain ⟨hts', hns2, hlast2⟩ := h
        subst hts'
        subst hns2
        subst hlast2
        cases j with
        | zero =>
          simp only [List.get?] at hj
          cases hj
          exact ⟨t0, rfl, Or.inl ⟨by simpa using hg, rfl⟩⟩
        | succ j =>
          simp only [List.get?] at hj
          exact ih h2 j t hj

theorem pass1_ok_names {dvn edd : Str} {ts : List Template} {ns : List Str}
    {last : Option (Nat × CSKind)} {idx : Nat} {ts' : List Template} {ns' : List Str}
    {last' : Option (Nat × CSKind)} :
    pass1 dvn edd ts ns last idx = .ok (ts', ns', last') →
    ns' = collectNames ts ns := by
  induction ts generalizing ns last idx ts' ns' last' with
  | nil =>
    intro h
    simp only [pass1, Except.ok.injEq, Prod.mk.injEq] at h
    exact h.2.1.symm
  | cons t0 rest ih =>
    intro h
    unfold pass1 at h
    by_cases hg : (t0.container.isSome || t0.script) = true
    · rw [if_pos hg] at h
      cases h1 : rewriteContainerTemplate dvn edd t0 ns with
      | error e => rw [h1] at h; exact absurd h (by simp)
      | ok r1 =>
        obtain ⟨t1, ns1, kind⟩ := r1
        rw [h1] at h
        dsimp only at h
        cases h2 : pass1 dvn edd rest ns1 (some (idx, kind)) (idx + 1) with
        | error e => rw [h2] at h; exact absurd h (by simp)
        | ok r2 =>
          obtain ⟨ts2, ns2, last2⟩ := r2
          rw [h2] at h
          simp only [Except.ok.injEq, Prod.mk.injEq] at h
          obtain ⟨_, hns, hlast2⟩ := h
          subst hns
          rw [ih h2, rct_ok_names hg h1]
          rfl
    · rw [if_neg hg] at h
      cases h2 : pass1 dvn edd rest ns last (idx + 1) with
      | error e => rw [h2] at h; exact absurd h (by simp)
      | ok r2 =>
        obtain ⟨ts2, ns2, last2⟩ := r2
        rw [h2] at h
        simp only [Except.ok.injEq, Prod.mk.injEq] at h
        obtain ⟨_, hns, _⟩ := h
        subst hns
        rw [ih h2]
        have hct : collectTemplateNames t0 ns = ns := by
          unfold collectTemplateNames
          rw [if_neg (by simpa using hg)]
        rw [collectNames, hct]

theorem pass2_ok_each {last : Option (Nat × CSKind)} {ts ts' : List Template} {sd : Bool} :
    pass2 last ts = .ok (ts', sd) →
    ∀ j t, ts.get? j = some t →
      ∃ t', ts'.get? j = some t' ∧
        (((t.dag.isSome || t.steps.isSome) = false ∧ t' = t) ∨
         ((t.dag.isSome || t.steps.isSome) = true ∧
          ∃ sd1, rewriteDagTemplate last t = .ok (t', sd1))) := by
  induction ts generalizing ts' sd with
  | nil => intro _ j t hj; simp at hj
  | cons t0 rest ih =>
    intro h j t hj
    unfold pass2 at h
    by_cases hg : (t0.dag.isSome || t0.steps.isSome) = true
    · rw [if_pos hg] at h
      cases h1 : rewriteDagTemplate last t0 with
      | error e => rw [h1] at h; exact absurd h (by simp)
      | ok r1 =>
        obtain ⟨t1, sd1⟩ := r1
        rw [h1] at h
        dsimp only at h
        cases h2 : pass2 last rest with
        | error e => rw [h2] at h; exact absurd h (by simp)
        | ok r2 =>
          obtain ⟨ts2, sd2⟩ := r2
          rw [h2] at h
          simp only [Except.ok.injEq, Prod.mk.injEq] at h
          obtain ⟨hts', _⟩ := h
          subst hts'
          cases j with
          | zero =>
            simp only [List.get?] at hj
            cases hj
            exact ⟨t1, rfl, Or.inr ⟨hg, sd1, h1⟩⟩
          | succ j =>
            simp only [List.get?] at hj
            exact ih h2 j t hj
    · rw [if_neg hg] at h
      cases h2 : pass2 last rest with
      | error e => rw [h2] at h; exact absurd h (by simp)
      | ok r2 =>
        obtain ⟨ts2, sd2⟩ := r2
        rw [h2] at h
        simp only [Except.ok.injEq, Prod.mk.injEq] at h
        obtain ⟨hts', hsd⟩ := h
        subst hts'
        cases j with
        | zero =>
          simp only [List.get?] at hj
          cases hj
          exact ⟨t0, rfl, Or.inl ⟨by simpa using hg, rfl⟩⟩
        | succ j =>
          simp only [List.get?] at hj
          exact ih h2 j t hj

theorem modifyAt_get? {α : Type} (f : α → α) : ∀ (n j : Nat) (l : List α),
    (modifyAt f n l).get? j = if j = n then (l.get? j).map f else l.get? j := by
  intro n j l
  induction l generalizing n j with
  | nil => cases n <;> cases j <;> simp [modifyAt]
  | cons x rest ih =>
    cases n with
    | zero =>
      cases j with
      | zero => simp [modifyAt]
      | succ j => simp [modifyAt]
    | succ n =>
      cases j with
      | zero => simp [modifyAt]
      | succ j =>
        simp only [modifyAt, List.get?, ih, Nat.succ.injEq]

theorem applySetdefault_get? (last : Option (Nat × CSKind)) (ts : List Template) (j : Nat) :
    ∃ g : Template → Template, (g = id ∨ g = setdefaultVolumeMounts) ∧
      (applySetdefault last ts).get? j = (ts.get? j).map g := by
  unfold applySetdefault
  cases last with
  | none => exact ⟨id, Or.inl rfl, by simp⟩
  | some ik =>
    obtain ⟨i, kind⟩ := ik
    cases kind with
    | dict =>
      rw [modifyAt_get?]
      by_cases hji : j = i
      · rw [if_pos hji]
        exact ⟨setdefaultVolumeMounts, Or.inr rfl, rfl⟩
      · rw [if_neg hji]
        exact ⟨id, Or.inl rfl, by simp⟩
    | stepsList => exact ⟨id, Or.inl rfl, by simp⟩

theorem sdVM_fields (t : Template) :
    mountsOf (setdefaultVolumeMounts t) = mountsOf t ∧
    (setdefaultVolumeMounts t).inputs = t.inputs ∧
    (setdefaultVolumeMounts t).outputs = t.outputs ∧
    (setdefaultVolumeMounts t).dag = t.dag ∧
    (setdefaultVolumeMounts t).steps = t.steps := by
  unfold setdefaultVolumeMounts mountsOf
  cases hc : t.container with
  | none => simp [hc]
  | some cs => simp [hc]

theorem rdp_ok_inv {w : Workflow} {v : Volume} {pp : Str} {w' : Workflow} :
    (rewrite_data_passing w v pp).result = .ok w' →
    ∃ ts1 ns last ts2 sd,
      pass1 data_volume_name (executionDataDir pp) w.spec.templates [] none 0 =
        .ok (ts1, ns, last) ∧
      pass2 last ts1 = .ok (ts2, sd) ∧
      wfArgArtifacts w = [] ∧
      w'.spec.templates = (if sd then applySetdefault last ts2 else ts2) ∧
      w'.spec.volumes = some (w.spec.volumes.getD [] ++ [{ v with name := some data_volume_name }]) ∧
      w'.spec.arguments = w.spec.arguments ∧
      (rewrite_data_passing w v pp).warnings = (if ns.length > 1 then [ns] else []) := by
  intro h
  unfold rewrite_data_passing at h ⊢
  dsimp only at h ⊢
  cases h1 : pass1 data_volume_name (executionDataDir pp) w.spec.templates [] none 0 with
  | error e => rw [h1] at h; simp at h
  | ok r1 =>
    obtain ⟨ts1, ns, last⟩ := r1
    rw [h1] at h
    dsimp only at h ⊢
    cases h2 : pass2 last ts1 with
    | error e => rw [h2] at h; simp at h
    | ok r2 =>
      obtain ⟨ts2, sd⟩ := r2
      rw [h2] at h
      dsimp only at h ⊢
      by_cases hargs : wfArgArtifacts w = []
      · rw [if_pos hargs] at h ⊢
        dsimp only at h ⊢
        simp only [Except.ok.injEq] at h
        refine ⟨ts1, ns, last, ts2, sd, rfl, h2, hargs, ?_, ?_, ?_, rfl⟩
        · rw [← h]
        · rw [← h]
        · rw [← h]
      · rw [if_neg hargs] at h
        simp at h

theorem rctOut_mountsOf (dvn edd : Str) (t : Template) (cs : ContainerSpec) :
    mountsOf (rctOut dvn edd t cs) =
      cs.volumeMounts.getD [] ++ (inputArts t).map (mkInputMount dvn) ++
      (outputArts t).map (mkOutputMount dvn edd) := by
  unfold rctOut mountsOf
  dsimp only
  by_cases hia : inputArts t = [] <;> by_cases hoa : outputArts t = [] <;>
    simp [hia, hoa]

theorem rctOut_dag (dvn edd : Str) (t : Template) (cs : ContainerSpec) :
    (rctOut dvn edd t cs).dag = t.dag := rfl

theorem rctOut_steps (dvn edd : Str) (t : Template) (cs : ContainerSpec) :
    (rctOut dvn edd t cs).steps = t.steps := rfl

theorem rctOut_inArtsOpt (dvn edd : Str) (t : Template) (cs : ContainerSpec) :
    inputArtifactsOpt (rctOut dvn edd t cs) = inputArtifactsOpt t := by
  unfold rctOut inputArtifactsOpt
  dsimp only
  by_cases hia : inputArts t = [] <;> simp [hia]

theorem rctOut_inArts (dvn edd : Str) (t : Template) (cs : ContainerSpec) :
    inputArts (rctOut dvn edd t cs) = inputArts t := by
  unfold inputArts
  have h := rctOut_inArtsOpt dvn edd t cs
  unfold inputArtifactsOpt at h
  rw [h]

theorem rctOut_outArtsOpt (dvn edd : Str) (t : Template) (cs : ContainerSpec) :
    outputArtifactsOpt (rctOut dvn edd t cs) =
      (if outputArts t = [] then outputArtifactsOpt t else none) := by
  unfold rctOut outputArtifactsOpt
  dsimp only
  by_cases hoa : outputArts t = [] <;> simp [hoa]

theorem rctOut_outArts (dvn edd : Str) (t : Template) (cs : ContainerSpec) :
    outputArts (rctOut dvn edd t cs) = [] ∨ outputArts (rctOut dvn edd t cs) = outputArts t := by
  unfold outputArts
  have h := rctOut_outArtsOpt dvn edd t cs
  unfold outputArtifactsOpt at h
  rw [h]
  by_cases hoa : outputArts t = []
  · right; rw [if_pos hoa]
  · left; rw [if_neg hoa]; rfl

theorem rctOut_inParams (dvn edd : Str) (t : Template) (cs : ContainerSpec) :
    inputParams (rctOut dvn edd t cs) =
      (if inputArts t = [] then inputParams t
       else inputParams t ++ (inputArts t).map mkInputParam) := by
  unfold rctOut inputParams
  dsimp only
  by_cases hia : inputArts t = [] <;> simp [hia]

theorem rctOut_outParams (dvn edd : Str) (t : Template) (cs : ContainerSpec) :
    outputParams (rctOut dvn edd t cs) =
      (if outputArts t = [] then outputParams t
       else outputParams t ++ (outputArts t).map (mkOutputParam edd)) := by
  unfold rctOut outputParams
  dsimp only
  by_cases hoa : outputArts t = [] <;> simp [hoa]

theorem rdtOut_container (t : Template) : (rdtOut t).container = t.container := rfl

theorem rdtOut_mountsOf (t : Template) : mountsOf (rdtOut t) = mountsOf t := rfl

theorem rdtOut_inArtsOpt (t : Template) :
    inputArtifactsOpt (rdtOut t) = inputArtifactsOpt t := by
  unfold rdtOut inputArtifactsOpt
  dsimp only
  by_cases hia : inputArts t = [] <;> simp [hia]

theorem rdtOut_inArts (t : Template) : inputArts (rdtOut t) = inputArts t := by
  unfold inputArts
  have h := rdtOut_inArtsOpt t
  unfold inputArtifactsOpt at h
  rw [h]

theorem rdtOut_outArtsOpt (t : Template) :
    outputArtifactsOpt (rdtOut t) = outputArtifactsOpt t := by
  unfold rdtOut outputArtifactsOpt
  dsimp only
  by_cases hoa : outputArts t = [] <;> simp [hoa]

theorem rdtOut_inParams (t : Template) :
    inputParams (rdtOut t) =
      (if inputArts t = [] then inputParams t
       else inputParams t ++ (inputArts t).map mkSubpathParam) := by
  unfold rdtOut inputParams
  dsimp only
  by_cases hia : inputArts t = [] <;> simp [hia]

theorem rdtOut_outParams (t : Template) :
    outputParams (rdtOut t) =
      (if outputArts t = [] then outputParams t
       else outputParams t ++ (outputArts t).map mkDagOutParam) := by
  unfold rdtOut outputParams
  dsimp only
  by_cases hoa : outputArts t = [] <;> simp [hoa]

theorem rdtOut_inputParams_mem {t : Template} {x : Parameter}
    (h : x ∈ inputParams t) : x ∈ inputParams (rdtOut t) := by
  rw [rdtOut_inParams]
  by_cases hia : inputArts t = []
  · rw [if_pos hia]; exact h
  · rw [if_neg hia]; exact List.mem_append_left _ h

theorem rdtOut_outputParams_mem {t : Template} {x : Parameter}
    (h : x ∈ outputParams t) : x ∈ outputParams (rdtOut t) := by
  rw [rdtOut_outParams]
  by_cases hoa : outputArts t = []
  · rw [if_pos hoa]; exact h
  · rw [if_neg hoa]; exact List.mem_append_left _ h

theorem rdtOut_dagTasks (t : Template) :
    (rdtOut t).dag = t.dag.map (fun d => { d with tasks := d.tasks.map (fun l => l.map rtOut) }) := rfl

theorem rdtOut_stepGroups (t : Template) :
    (rdtOut t).steps = t.steps.map (fun gs => gs.map (fun g => g.map rtOut)) := rfl

theorem rtOut_argParams (task : DagTask) :
    argParams (rtOut task) =
      (if argArts task = [] then argParams task
       else argParams task ++ (argArts task).map mkArgParam) := by
  unfold rtOut argParams
  by_cases haa : argArts task = [] <;> simp [haa]

theorem sdVM_inputParams (t : Template) :
    inputParams (setdefaultVolumeMounts t) = inputParams t := by
  unfold inputParams
  rw [(sdVM_fields t).2.1]

theorem sdVM_outputParams (t : Template) :
    outputParams (setdefaultVolumeMounts t) = outputParams t := by
  unfold outputParams
  rw [(sdVM_fields t).2.2.1]

theorem sdVM_inArtsOpt (t : Template) :
    inputArtifactsOpt (setdefaultVolumeMounts t) = inputArtifactsOpt t := by
  unfold inputArtifactsOpt
  rw [(sdVM_fields t).2.1]

theorem sdVM_outArtsOpt (t : Template) :
    outputArtifactsOpt (setdefaultVolumeMounts t) = outputArtifactsOpt t := by
  unfold outputArtifactsOpt
  rw [(sdVM_fields t).2.2.1]

theorem pass1_at_container {dvn edd : Str} {ts : List Template} {ns : List Str}
    {last : Option (Nat × CSKind)} {idx : Nat} {ts' : List Template} {ns' : List Str}
    {last' : Option (Nat × CSKind)} {i : Nat} {t : Template} {cs : ContainerSpec}
    (h : pass1 dvn edd ts ns last idx = .ok (ts', ns', last'))
    (hi : ts.get? i = some t) (hc : t.container = some cs) (htr : csTruthy cs = true) :
    ts'.get? i = some (rctOut dvn edd t cs) ∧
    (∀ a ∈ inputArts t, a.path.isSome) ∧ (∀ a ∈ outputArts t, a.path.isSome) := by
  obtain ⟨t1, ht1, hcase⟩ := pass1_ok_each h i t hi
  rcases hcase with ⟨hgf, _⟩ | ⟨_, ns0, ns1, k, hrc⟩
  · rw [hc] at hgf; simp at hgf
  · obtain ⟨he, _, _, hip, hop⟩ := rct_ok_dict hc htr hrc
    subst he
    exact ⟨ht1, hip, hop⟩

theorem pass1_at_unprocessed {dvn edd : Str} {ts : List Template} {ns : List Str}
    {last : Option (Nat × CSKind)} {idx : Nat} {ts' : List Template} {ns' : List Str}
    {last' : Option (Nat × CSKind)} {i : Nat} {t : Template}
    (h : pass1 dvn edd ts ns last idx = .ok (ts', ns', last'))
    (hi : ts.get? i = some t) (hg : (t.container.isSome || t.script) = false) :
    ts'.get? i = some t := by
  obtain ⟨t1, ht1, hcase⟩ := pass1_ok_each h i t hi
  rcases hcase with ⟨_, rfl⟩ | ⟨hg2, _⟩
  · exact ht1
  · rw [hg] at hg2; exact absurd hg2 (by simp)

theorem pass2_preserve {last : Option (Nat × CSKind)} {ts ts' : List Template} {sd : Bool}
    {i : Nat} {t1 : Template}
    (h2 : pass2 last ts = .ok (ts', sd)) (hi : ts.get? i = some t1) :
    ∃ t2, ts'.get? i = some t2 ∧ mountsOf t2 = mountsOf t1 ∧
      (∀ x ∈ inputParams t1, x ∈ inputParams t2) ∧
      (∀ x ∈ outputParams t1, x ∈ outputParams t2) ∧
      inputArtifactsOpt t2 = inputArtifactsOpt t1 ∧
      outputArtifactsOpt t2 = outputArtifactsOpt t1 := by
  obtain ⟨t2, ht2, hcase⟩ := pass2_ok_each h2 i t1 hi
  rcases hcase with ⟨_, heq⟩ | ⟨_, sd1, hrdt⟩
  · subst heq
    exact ⟨_, ht2, rfl, fun x h => h, fun x h => h, rfl, rfl⟩
  · obtain ⟨he, _, _, _⟩ := rdt_ok hrdt
    subst he
    exact ⟨_, ht2, rdtOut_mountsOf t1, fun x h => rdtOut_inputParams_mem h,
           fun x h => rdtOut_outputParams_mem h, rdtOut_inArtsOpt t1, rdtOut_outArtsOpt t1⟩

theorem final_preserve {w' : Workflow} {last : Option (Nat × CSKind)} {ts2 : List Template}
    {sd : Bool} {i : Nat} {t2 : Template}
    (hw't : w'.spec.templates = (if sd = true then applySetdefault last ts2 else ts2))
    (hi : ts2.get? i = some t2) :
    ∃ t', w'.spec.templates.get? i = some t' ∧ mountsOf t' = mountsOf t2 ∧
      inputParams t' = inputParams t2 ∧ outputParams t' = outputParams t2 ∧
      inputArtifactsOpt t' = inputArtifactsOpt t2 ∧
      outputArtifactsOpt t' = outputArtifactsOpt t2 ∧
      t'.dag = t2.dag ∧ t'.steps = t2.steps := by
  have hfin : ∃ g : Template → Template, (g = id ∨ g = setdefaultVolumeMounts) ∧
      w'.spec.templates.get? i = (ts2.get? i).map g := by
    rw [hw't]
    by_cases hsd : sd = true
    · rw [if_pos hsd]; exact applySetdefault_get? last ts2 i
    · rw [if_neg hsd]; exact ⟨id, Or.inl rfl, by simp⟩
  obtain ⟨g, hgid, hget⟩ := hfin
  rw [hi] at hget
  rcases hgid with rfl | rfl
  · exact ⟨t2, by simpa using hget, rfl, rfl, rfl, rfl, rfl, rfl, rfl⟩
  · refine ⟨setdefaultVolumeMounts t2, by simpa using hget, (sdVM_fields t2).1,
      sdVM_inputParams t2, sdVM_outputParams t2, sdVM_inArtsOpt t2, sdVM_outArtsOpt t2,
      (sdVM_fields t2).2.2.2.1, (sdVM_fields t2).2.2.2.2⟩

/-- C2: after a successful rewrite, every container template's (truthy
container dict) input artifact with path p has an appended read-only volume
mount at dirname p on the shared volume whose subPath is the templated
inputs-parameter reference of name-subpath, and every output artifact with
path p has an appended read-write mount (no readOnly key) whose subPath is
the per-execution directory followed by the artifact name, together with an
output parameter name-subpath carrying that same subPath. -/
theorem C2_theorem (w : Workflow) (v : Volume) (pp : Str) (w' : Workflow) (i : Nat)
    (t : Template) (cs : ContainerSpec)
    (hok : (rewrite_data_passing w v pp).result = .ok w')
    (ht : w.spec.templates.get? i = some t)
    (hc : t.container = some cs) (htr : csTruthy cs = true) :
    ∃ t', w'.spec.templates.get? i = some t' ∧
      (∀ a ∈ inputArts t, ∀ p, a.path = some p →
        ({ mountPath := dirname p, name := data_volume_name,
           subPath := "\x7b\x7binputs.parameters.".data ++
             (a.name ++ subpath_parameter_name_suffix) ++ "\x7d\x7d".data,
           readOnly := some true } : VolumeMount) ∈ mountsOf t') ∧
      (∀ a ∈ outputArts t, ∀ p, a.path = some p →
        ({ mountPath := dirname p, name := data_volume_name,
           subPath := executionDataDir pp ++ a.name,
           readOnly := none } : VolumeMount) ∈ mountsOf t' ∧
        ({ name := a.name ++ subpath_parameter_name_suffix,
           value := some (executionDataDir pp ++ a.name),
           valueFrom := none } : Parameter) ∈ outputParams t') := by
  obtain ⟨ts1, ns, last, ts2, sd, h1, h2, hargs, hw't, _, _, _⟩ := rdp_ok_inv hok
  obtain ⟨ht1, hip, hop⟩ := pass1_at_container h1 ht hc htr
  obtain ⟨t2, ht2, hm2, hpin2, hpout2, _⟩ := pass2_preserve h2 ht1
  obtain ⟨t', ht', hm', hpin', hpout', _, _, _, _⟩ := final_preserve hw't ht2
  refine ⟨t', ht', ?_, ?_⟩
  · intro a ha p hp
    rw [hm', hm2, rctOut_mountsOf]
    have : mkInputMount data_volume_name a =
        { mountPath := dirname p, name := data_volume_name,
          subPath := "\x7b\x7binputs.parameters.".data ++
            (a.name ++ subpath_parameter_name_suffix) ++ "\x7d\x7d".data,
          readOnly := some true } := by
      unfold mkInputMount
      rw [hp]
      rfl
    rw [← this]
    exact List.mem_append_left _ (List.mem_append_right _ (List.mem_map_of_mem _ ha))
  · intro a ha p hp
    constructor
    · rw [hm', hm2, rctOut_mountsOf]
      have : mkOutputMount data_volume_name (executionDataDir pp) a =
          { mountPath := dirname p, name := data_volume_name,
            subPath := executionDataDir pp ++ a.name, readOnly := none } := by
        unfold mkOutputMount
        rw [hp]
        rfl
      rw [← this]
      exact List.mem_append_right _ (List.mem_map_of_mem _ ha)
    · rw [hpout']
      apply hpout2
      rw [rctOut_outParams]
      rw [if_neg (by intro he; rw [he] at ha; exact absurd ha (List.not_mem_nil a))]
      have : mkOutputParam (executionDataDir pp) a =
          { name := a.name ++ subpath_parameter_name_suffix,
            value := some (executionDataDir pp ++ a.name), valueFrom := none } := rfl
      rw [← this]
      exact List.mem_append_right _ (List.mem_map_of_mem _ ha)

/-- C2 witness: the end-to-end scenario instantiated for the producer
template (index 0, output artifact) and the consumer template (index 1,
input artifact). -/
theorem C2_witness :
    ((rewrite_data_passing exWorkflow exVolume defaultPathPrefix).result =
      .ok (getOk (rewrite_data_passing exWorkflow exVolume defaultPathPrefix).result)) ∧
    (∃ t', (getOk (rewrite_data_passing exWorkflow exVolume defaultPathPrefix).result).spec.templates.get? 0 = some t' ∧
      (∀ a ∈ inputArts prodTemplate, ∀ p, a.path = some p →
        ({ mountPath := dirname p, name := data_volume_name,
           subPath := "\x7b\x7binputs.parameters.".data ++
             (a.name ++ subpath_parameter_name_suffix) ++ "\x7d\x7d".data,
           readOnly := some true } : VolumeMount) ∈ mountsOf t') ∧
      (∀ a ∈ outputArts prodTemplate, ∀ p, a.path = some p →
        ({ mountPath := dirname p, name := data_volume_name,
           subPath := executionDataDir defaultPathPrefix ++ a.name,
           readOnly := none } : VolumeMount) ∈ mountsOf t' ∧
        ({ name := a.name ++ subpath_parameter_name_suffix,
           value := some (executionDataDir defaultPathPrefix ++ a.name),
           valueFrom := none } : Parameter) ∈ outputParams t')) :=
  ⟨by decide,
   C2_theorem exWorkflow exVolume defaultPathPrefix
     (getOk (rewrite_data_passing exWorkflow exVolume defaultPathPrefix).result) 0
     prodTemplate {} (by decide) (by decide) (by decide) (by decide)⟩

/-- C3: after a successful rewrite, for every artifact name n among a
template's declared input (respectively output) artifacts — whether the
template is a container, DAG, or steps template — the rewritten template's
input (respectively output) parameter list contains a parameter named
n plus the -subpath suffix. -/
theorem C3_theorem (w : Workflow) (v : Volume) (pp : Str) (w' : Workflow) (i : Nat)
    (t : Template)
    (hok : (rewrite_data_passing w v pp).result = .ok w')
    (ht : w.spec.templates.get? i = some t)
    (hk : containerTruthy t = true ∨ t.dag.isSome = true ∨ t.steps.isSome = true) :
    ∃ t', w'.spec.templates.get? i = some t' ∧
      (∀ n ∈ inputArtNames t, (n ++ subpath_parameter_name_suffix) ∈ inputParamNames t') ∧
      (∀ n ∈ outputArtNames t, (n ++ subpath_parameter_name_suffix) ∈ outputParamNames t') := by
  obtain ⟨ts1, ns, last, ts2, sd, h1, h2, hargs, hw't, _, _, _⟩ := rdp_ok_inv hok
  by_cases hct : containerTruthy t = true
  · obtain ⟨cs, hc, htr⟩ : ∃ cs, t.container = some cs ∧ csTruthy cs = true := by
      unfold containerTruthy at hct
      cases hcon : t.container with
      | none => rw [hcon] at hct; simp at hct
      | some cs => rw [hcon] at hct; simp at hct; exact ⟨cs, rfl, hct⟩
    obtain ⟨ht1, _, _⟩ := pass1_at_container h1 ht hc htr
    obtain ⟨t2, ht2, _, hpin2, hpout2, _⟩ := pass2_preserve h2 ht1
    obtain ⟨t', ht', _, hpin', hpout', _, _, _, _⟩ := final_preserve hw't ht2
    refine ⟨t', ht', ?_, ?_⟩
    · intro n hn
      obtain ⟨a, ha, rfl⟩ := List.mem_map.mp hn
      have hia : inputArts t ≠ [] := by
        intro he; rw [he] at ha; exact absurd ha (List.not_mem_nil a)
      have hmem : mkInputParam a ∈ inputParams t' := by
        rw [hpin']
        apply hpin2
        rw [rctOut_inParams, if_neg hia]
        exact List.mem_append_right _ (List.mem_map_of_mem _ ha)
      exact List.mem_map.mpr ⟨mkInputParam a, hmem, rfl⟩
    · intro n hn
      obtain ⟨a, ha, rfl⟩ := List.mem_map.mp hn
      have hoa : outputArts t ≠ [] := by
        intro he; rw [he] at ha; exact absurd ha (List.not_mem_nil a)
      have hmem : mkOutputParam (executionDataDir pp) a ∈ outputParams t' := by
        rw [hpout']
        apply hpout2
        rw [rctOut_outParams, if_neg hoa]
        exact List.mem_append_right _ (List.mem_map_of_mem _ ha)
      exact List.mem_map.mpr ⟨mkOutputParam (executionDataDir pp) a, hmem, rfl⟩
  · have hg2 : (t.dag.isSome || t.steps.isSome) = true := by
      rcases hk with hk | hk | hk
      · exact absurd hk hct
      · rw [hk]; rfl
      · rw [hk]; simp
    cases hcon : t.container with
    | some cs =>
      have htr : csTruthy cs = false := by
        unfold containerTruthy at hct
        rw [hcon] at hct
        simpa using hct
      obtain ⟨t1, ht1, hcase⟩ := pass1_ok_each h1 i t ht
      have hfacts : t1 = t ∧ inputArts t = [] ∧ outputArts t = [] := by
        rcases hcase with ⟨hgf, heq⟩ | ⟨_, ns0, ns1, k, hrc⟩
        · rw [hcon] at hgf; simp at hgf
        · obtain ⟨he, _, _, hia, hoa⟩ := rct_ok_steps hcon htr hrc
          exact ⟨he, hia, hoa⟩
      obtain ⟨rfl, hia, hoa⟩ := hfacts
      obtain ⟨t2, ht2, _, _, _, _⟩ := pass2_preserve h2 ht1
      obtain ⟨t', ht', _, _, _, _, _, _, _⟩ := final_preserve hw't ht2
      refine ⟨t', ht', ?_, ?_⟩
      · intro n hn
        unfold inputArtNames at hn
        rw [hia] at hn
        exact absurd hn (List.not_mem_nil n)
      · intro n hn
        unfold outputArtNames at hn
        rw [hoa] at hn
        exact absurd hn (List.not_mem_nil n)
    | none =>
      by_cases hscript : t.script = true
      · obtain ⟨t1, ht1, hcase⟩ := pass1_ok_each h1 i t ht
        rcases hcase with ⟨hgf, _⟩ | ⟨_, ns0, ns1, k, hrc⟩
        · rw [hscript] at hgf; simp at hgf
        · rw [rct_err_no_container hcon] at hrc
          exact absurd hrc (by simp)
      · have ht1 := pass1_at_unprocessed h1 ht
          (by rw [hcon]; simp [Bool.not_eq_true] at hscript; rw [hscript]; rfl)
        obtain ⟨t2, ht2, hcase2⟩ := pass2_ok_each h2 i t ht1
        rcases hcase2 with ⟨hgf, _⟩ | ⟨_, sd1, hrdt⟩
        · rw [hg2] at hgf; exact absurd hgf (by simp)
        · obtain ⟨he2, _, _, _⟩ := rdt_ok hrdt
          subst he2
          obtain ⟨t', ht', _, hpin', hpout', _, _, _, _⟩ := final_preserve hw't ht2
          refine ⟨t', ht', ?_, ?_⟩
          · intro n hn
            obtain ⟨a, ha, rfl⟩ := List.mem_map.mp hn
            have hia : inputArts t ≠ [] := by
              intro he; rw [he] at ha; exact absurd ha (List.not_mem_nil a)
            have hmem : mkSubpathParam a ∈ inputParams t' := by
              rw [hpin', rdtOut_inParams, if_neg hia]
              exact List.mem_append_right _ (List.mem_map_of_mem _ ha)
            exact List.mem_map.mpr ⟨mkSubpathParam a, hmem, rfl⟩
          · intro n hn
            obtain ⟨a, ha, rfl⟩ := List.mem_map.mp hn
            have hoa : outputArts t ≠ [] := by
              intro he; rw [he] at ha; exact absurd ha (List.not_mem_nil a)
            have hmem : mkDagOutParam a ∈ outputParams t' := by
              rw [hpout', rdtOut_outParams, if_neg hoa]
              exact List.mem_append_right _ (List.mem_map_of_mem _ ha)
            exact List.mem_map.mpr ⟨mkDagOutParam a, hmem, rfl⟩

/-- C3 witness: the end-to-end scenario instantiated for the consumer
container template at index 1 with input artifact name data. -/
theorem C3_witness :
    ((rewrite_data_passing exWorkflow exVolume defaultPathPrefix).result =
      .ok (getOk (rewrite_data_passing exWorkflow exVolume defaultPathPrefix).result)) ∧
    (∃ t', (getOk (rewrite_data_passing exWorkflow exVolume defaultPathPrefix).result).spec.templates.get? 1 = some t' ∧
      (∀ n ∈ inputArtNames consTemplate,
        (n ++ subpath_parameter_name_suffix) ∈ inputParamNames t') ∧
      (∀ n ∈ outputArtNames consTemplate,
        (n ++ subpath_parameter_name_suffix) ∈ outputParamNames t')) :=
  ⟨by decide,
   C3_theorem exWorkflow exVolume defaultPathPrefix
     (getOk (rewrite_data_passing exWorkflow exVolume defaultPathPrefix).result) 1
     consTemplate (by decide) (by decide) (Or.inl (by decide))⟩

/-- C4: after a successful rewrite, every task of a DAG template and every
step of a steps template that passes an artifact argument with a from
reference gains an appended parameter argument named name-subpath whose
value is the from expression translated by the Reference Translator. -/
theorem C4_theorem (w : Workflow) (v : Volume) (pp : Str) (w' : Workflow) (i : Nat)
    (t : Template)
    (hok : (rewrite_data_passing w v pp).result = .ok w')
    (ht : w.spec.templates.get? i = some t) :
    (∀ d j task a f, t.dag = some d → (d.tasks.getD []).get? j = some task →
      a ∈ argArts task → a.fromRef = some f →
      ∃ t' d' task', w'.spec.templates.get? i = some t' ∧ t'.dag = some d' ∧
        (d'.tasks.getD []).get? j = some task' ∧
        ({ name := a.name ++ subpath_parameter_name_suffix,
           value := some (convert_artifact_reference_to_parameter_reference f),
           valueFrom := none } : Parameter) ∈ argParams task') ∧
    (∀ gs gi ki grp task a f, t.steps = some gs → gs.get? gi = some grp →
      grp.get? ki = some task → a ∈ argArts task → a.fromRef = some f →
      ∃ t' gs' grp' task', w'.spec.templates.get? i = some t' ∧ t'.steps = some gs' ∧
        gs'.get? gi = some grp' ∧ grp'.get? ki = some task' ∧
        ({ name := a.name ++ subpath_parameter_name_suffix,
           value := some (convert_artifact_reference_to_parameter_reference f),
           valueFrom := none } : Parameter) ∈ argParams task') := by
  obtain ⟨ts1, ns, last, ts2, sd, h1, h2, hargs, hw't, _, _, _⟩ := rdp_ok_inv hok
  obtain ⟨t1, ht1, hdag1, hsteps1⟩ :
      ∃ t1, ts1.get? i = some t1 ∧ t1.dag = t.dag ∧ t1.steps = t.steps := by
    obtain ⟨t1, ht1, hcase⟩ := pass1_ok_each h1 i t ht
    rcases hcase with ⟨_, heq⟩ | ⟨_, ns0, ns1, k, hrc⟩
    · subst heq; exact ⟨_, ht1, rfl, rfl⟩
    · obtain ⟨hd, hs, _⟩ := rct_preserves hrc
      exact ⟨t1, ht1, hd, hs⟩
  have hparam : ∀ (task : DagTask) (a : Artifact) (f : Str), a ∈ argArts task →
      a.fromRef = some f →
      ({ name := a.name ++ subpath_parameter_name_suffix,
         value := some (convert_artifact_reference_to_parameter_reference f),
         valueFrom := none } : Parameter) ∈ argParams (rtOut task) := by
    intro task a f ha hf
    rw [rtOut_argParams]
    have haa : argArts task ≠ [] := by
      intro he; rw [he] at ha; exact absurd ha (List.not_mem_nil a)
    rw [if_neg haa]
    have : mkArgParam a =
        { name := a.name ++ subpath_parameter_name_suffix,
          value := some (convert_artifact_reference_to_parameter_reference f),
          valueFrom := none } := by
      unfold mkArgParam
      rw [hf]
      rfl
    rw [← this]
    exact List.mem_append_right _ (List.mem_map_of_mem _ ha)
  constructor
  · intro d j task a f hd htask ha hf
    have hg2 : (t1.dag.isSome || t1.steps.isSome) = true := by
      rw [hdag1, hd]; rfl
    obtain ⟨t2, ht2, hcase2⟩ := pass2_ok_each h2 i t1 ht1
    rcases hcase2 with ⟨hgf, _⟩ | ⟨_, sd1, hrdt⟩
    · rw [hg2] at hgf; exact absurd hgf (by simp)
    obtain ⟨he2, _, _, _⟩ := rdt_ok hrdt
    subst he2
    obtain ⟨t', ht', _, _, _, _, _, hdag', hsteps'⟩ := final_preserve hw't ht2
    have hld : ∃ l, d.tasks = some l ∧ l.get? j = some task := by
      cases hl : d.tasks with
      | none => rw [hl] at htask; simp at htask
      | some l => rw [hl] at htask; exact ⟨l, rfl, htask⟩
    obtain ⟨l, hl, hlj⟩ := hld
    refine ⟨t', { tasks := some (l.map rtOut) }, rtOut task, ht', ?_, ?_, hparam task a f ha hf⟩
    · rw [hdag', rdtOut_dagTasks, hdag1, hd]
      simp [hl]
    · simp only [Option.getD_some]
      rw [List.get?_map, hlj]
      rfl
  · intro gs gi ki grp task a f hgs hgi hki ha hf
    have hg2 : (t1.dag.isSome || t1.steps.isSome) = true := by
      rw [hsteps1, hgs]; simp
    obtain ⟨t2, ht2, hcase2⟩ := pass2_ok_each h2 i t1 ht1
    rcases hcase2 with ⟨hgf, _⟩ | ⟨_, sd1, hrdt⟩
    · rw [hg2] at hgf; exact absurd hgf (by simp)
    obtain ⟨he2, _, _, _⟩ := rdt_ok hrdt
    subst he2
    obtain ⟨t', ht', _, _, _, _, _, hdag', hsteps'⟩ := final_preserve hw't ht2
    refine ⟨t', gs.map (fun g => g.map rtOut), grp.map rtOut, rtOut task, ht', ?_, ?_, ?_,
      hparam task a f ha hf⟩
    · rw [hsteps', rdtOut_stepGroups, hsteps1, hgs]
      rfl
    · rw [List.get?_map, hgi]
      rfl
    · rw [List.get?_map, hki]
      rfl

/-- C4 witness: the end-to-end scenario instantiated for the DAG template at
index 2, task index 1, and for the steps variant at index 2, group 0,
step 0. -/
theorem C4_witness :
    (∃ t' d' task',
      (getOk (rewrite_data_passing exWorkflow exVolume defaultPathPrefix).result).spec.templates.get? 2 = some t' ∧
      t'.dag = some d' ∧ (d'.tasks.getD []).get? 1 = some task' ∧
      ({ name := "data".data ++ subpath_parameter_name_suffix,
         value := some (convert_artifact_reference_to_parameter_reference
           "\x7b\x7btasks.producer.outputs.artifacts.data\x7d\x7d".data),
         valueFrom := none } : Parameter) ∈ argParams task') ∧
    (∃ t' gs' grp' task',
      (getOk (rewrite_data_passing exWorkflowSteps exVolume defaultPathPrefix).result).spec.templates.get? 2 = some t' ∧
      t'.steps = some gs' ∧ gs'.get? 0 = some grp' ∧ grp'.get? 0 = some task' ∧
      ({ name := "data".data ++ subpath_parameter_name_suffix,
         value := some (convert_artifact_reference_to_parameter_reference
           "\x7b\x7btasks.producer.outputs.artifacts.data\x7d\x7d".data),
         valueFrom := none } : Parameter) ∈ argParams task') :=
  ⟨(C4_theorem exWorkflow exVolume defaultPathPrefix
      (getOk (rewrite_data_passing exWorkflow exVolume defaultPathPrefix).result) 2
      dagTemplate (by decide) (by decide)).1
      { tasks := some [{ arguments := none }, consTask] } 1 consTask consTaskArg
      "\x7b\x7btasks.producer.outputs.artifacts.data\x7d\x7d".data
      (by decide) (by decide) (by decide) (by decide),
   (C4_theorem exWorkflowSteps exVolume defaultPathPrefix
      (getOk (rewrite_data_passing exWorkflowSteps exVolume defaultPathPrefix).result) 2
      stepsTemplate (by decide) (by decide)).2
      [[consTask]] 0 0 [consTask] consTask consTaskArg
      "\x7b\x7btasks.producer.outputs.artifacts.data\x7d\x7d".data
      (by decide) (by decide) (by decide) (by decide) (by decide)⟩

/-- C6: if any DAG task or step passes an artifact argument without a from
reference, or the workflow declares top-level constant artifact arguments,
the rewrite produces no result value (all-or-nothing); on representative
inputs the surfaced error is the unsupported-construct
NotImplementedError. -/
theorem C6_theorem :
    (∀ (w : Workflow) (v : Volume) (pp : Str),
      ((∃ t ∈ w.spec.templates, (t.dag.isSome || t.steps.isSome) = true ∧
         ∃ task ∈ taskList t, ∃ a ∈ argArts task, a.fromRef = none) ∨
       wfArgArtifacts w ≠ []) →
      ∀ w', (rewrite_data_passing w v pp).result ≠ .ok w') ∧
    (rewrite_data_passing exWorkflowFromless exVolume defaultPathPrefix).result =
      .error .notImplementedError ∧
    (rewrite_data_passing exWorkflowWfArgs exVolume defaultPathPrefix).result =
      .error .notImplementedError := by
  refine ⟨?_, by decide, by decide⟩
  intro w v pp hcond w' hok
  obtain ⟨ts1, ns, last, ts2, sd, h1, h2, hargs, _, _, _, _⟩ := rdp_ok_inv hok
  rcases hcond with ⟨t, htmem, hmark, task, htask, a, ha, hf⟩ | hwa
  · obtain ⟨i, hi⟩ := List.get?_of_mem htmem
    obtain ⟨t1, ht1, hdag1, hsteps1⟩ :
        ∃ t1, ts1.get? i = some t1 ∧ t1.dag = t.dag ∧ t1.steps = t.steps := by
      obtain ⟨t1, ht1, hcase⟩ := pass1_ok_each h1 i t hi
      rcases hcase with ⟨_, heq⟩ | ⟨_, ns0, ns1, k, hrc⟩
      · subst heq; exact ⟨_, ht1, rfl, rfl⟩
      · obtain ⟨hd, hs, _⟩ := rct_preserves hrc
        exact ⟨t1, ht1, hd, hs⟩
    have htl : taskList t1 = taskList t := by
      unfold taskList
      rw [hdag1, hsteps1]
    have hg2 : (t1.dag.isSome || t1.steps.isSome) = true := by
      rw [hdag1, hsteps1]; exact hmark
    obtain ⟨t2, ht2, hcase2⟩ := pass2_ok_each h2 i t1 ht1
    rcases hcase2 with ⟨hgf, _⟩ | ⟨_, sd1, hrdt⟩
    · rw [hg2] at hgf; exact absurd hgf (by simp)
    · obtain ⟨_, _, htasks, _⟩ := rdt_ok hrdt
      rw [htl] at htasks
      exact rt_no_ok ha hf (rtOut task) (htasks task htask)
  · exact hwa hargs

/-- C6 witness: the general part applied to the from-less task workflow and
to the workflow with top-level constant artifact arguments. -/
theorem C6_witness :
    (rewrite_data_passing exWorkflowFromless exVolume defaultPathPrefix).result ≠
      .ok exWorkflowFromless ∧
    (rewrite_data_passing exWorkflowWfArgs exVolume defaultPathPrefix).result ≠
      .ok exWorkflowWfArgs :=
  ⟨C6_theorem.1 exWorkflowFromless exVolume defaultPathPrefix
     (Or.inl ⟨fromlessDagTemplate, by decide, by decide,
       fromlessTask, by decide, { name := "data".data }, by decide, by decide⟩)
     exWorkflowFromless,
   C6_theorem.1 exWorkflowWfArgs exVolume defaultPathPrefix
     (Or.inr (by decide)) exWorkflowWfArgs⟩

/-- C10: a template carrying a script key but no container key makes the
container pass raise KeyError on container (line 629), even when the
template declares no artifacts, so such workflows never produce a result. -/
theorem C10_theorem :
    (∀ (w : Workflow) (v : Volume) (pp : Str),
      (∃ t ∈ w.spec.templates, t.script = true ∧ t.container = none) →
      ∀ w', (rewrite_data_passing w v pp).result ≠ .ok w') ∧
    (rewrite_data_passing exWorkflowScript exVolume defaultPathPrefix).result =
      .error (.keyError "container".data) ∧
    inputArts scriptTemplate = [] ∧ outputArts scriptTemplate = [] := by
  refine ⟨?_, by decide, by decide, by decide⟩
  intro w v pp hcond w' hok
  obtain ⟨ts1, ns, last, ts2, sd, h1, h2, hargs, _, _, _, _⟩ := rdp_ok_inv hok
  obtain ⟨t, htmem, hscript, hc⟩ := hcond
  obtain ⟨i, hi⟩ := List.get?_of_mem htmem
  obtain ⟨t1, ht1, hcase⟩ := pass1_ok_each h1 i t hi
  rcases hcase with ⟨hgf, _⟩ | ⟨_, ns0, ns1, k, hrc⟩
  · rw [hscript] at hgf; simp at hgf
  · rw [rct_err_no_container hc] at hrc
    exact absurd hrc (by simp)

/-- C10 witness: the script-template workflow never returns a result. -/
theorem C10_witness :
    (rewrite_data_passing exWorkflowScript exVolume defaultPathPrefix).result ≠
      .ok exWorkflowScript :=
  C10_theorem.1 exWorkflowScript exVolume defaultPathPrefix
    ⟨scriptTemplate, by decide, by decide, by decide⟩ exWorkflowScript

/-- C7: the claim is refuted: the rewrite deletes the superseded output
artifact entries of CONTAINER templates (line 655 is an active del), while
the removals for DAG/steps outputs (line 706) are commented out, so a DAG
template's output artifact entry is still present after the rewrite — the
opposite of the claimed policy. -/
theorem C7_counterexample :
    ((rewrite_data_passing exWorkflowC7 exVolume defaultPathPrefix).result.map
        (fun w => (outputArtifactsOpt ((w.spec.templates.get? 0).getD {}),
                   outputArtifactsOpt ((w.spec.templates.get? 1).getD {})))) =
      .ok (none, some [dagOutArtifact]) ∧
    outputArtifactsOpt prodTemplate = some [prodArtifact] ∧
    outputArtifactsOpt dagOutTemplate = some [dagOutArtifact] := by
  refine ⟨by decide, by decide, by decide⟩

/-- C7 amended: after a successful rewrite, superseded artifact entries are
removed from CONTAINER templates' outputs (the artifacts key is deleted when
the list was nonempty), while container templates' input artifact entries
and DAG/steps templates' input AND output artifact entries are left in
place. -/
theorem C7_theorem (w : Workflow) (v : Volume) (pp : Str) (w' : Workflow) (i : Nat)
    (t : Template)
    (hok : (rewrite_data_passing w v pp).result = .ok w')
    (ht : w.spec.templates.get? i = some t) :
    (∀ cs, t.container = some cs → csTruthy cs = true →
      ∃ t', w'.spec.templates.get? i = some t' ∧
        inputArtifactsOpt t' = inputArtifactsOpt t ∧
        outputArtifactsOpt t' = (if outputArts t = [] then outputArtifactsOpt t else none)) ∧
    ((t.dag.isSome || t.steps.isSome) = true → t.container = none → t.script = false →
      ∃ t', w'.spec.templates.get? i = some t' ∧
        inputArtifactsOpt t' = inputArtifactsOpt t ∧
        outputArtifactsOpt t' = outputArtifactsOpt t) := by
  obtain ⟨ts1, ns, last, ts2, sd, h1, h2, hargs, hw't, _, _, _⟩ := rdp_ok_inv hok
  constructor
  · intro cs hc htr
    obtain ⟨ht1, _, _⟩ := pass1_at_container h1 ht hc htr
    obtain ⟨t2, ht2, _, _, _, hin2, hout2⟩ := pass2_preserve h2 ht1
    obtain ⟨t', ht', _, _, _, hin', hout', _, _⟩ := final_preserve hw't ht2
    refine ⟨t', ht', ?_, ?_⟩
    · rw [hin', hin2, rctOut_inArtsOpt]
    · rw [hout', hout2, rctOut_outArtsOpt]
  · intro hmark hc hscript
    have ht1 := pass1_at_unprocessed h1 ht (by rw [hc, hscript]; rfl)
    obtain ⟨t2, ht2, _, _, _, hin2, hout2⟩ := pass2_preserve h2 ht1
    obtain ⟨t', ht', _, _, _, hin', hout', _, _⟩ := final_preserve hw't ht2
    exact ⟨t', ht', by rw [hin', hin2], by rw [hout', hout2]⟩

/-- C7 witness: the amended theorem applied to the container template
(outputs removed) and the DAG template (outputs kept) of the concrete
workflow. -/
theorem C7_witness :
    (∃ t', (getOk (rewrite_data_passing exWorkflowC7 exVolume defaultPathPrefix).result).spec.templates.get? 0 = some t' ∧
      inputArtifactsOpt t' = inputArtifactsOpt prodTemplate ∧
      outputArtifactsOpt t' =
        (if outputArts prodTemplate = [] then outputArtifactsOpt prodTemplate else none)) ∧
    (∃ t', (getOk (rewrite_data_passing exWorkflowC7 exVolume defaultPathPrefix).result).spec.templates.get? 1 = some t' ∧
      inputArtifactsOpt t' = inputArtifactsOpt dagOutTemplate ∧
      outputArtifactsOpt t' = outputArtifactsOpt dagOutTemplate) :=
  ⟨(C7_theorem exWorkflowC7 exVolume defaultPathPrefix
      (getOk (rewrite_data_passing exWorkflowC7 exVolume defaultPathPrefix).result) 0
      prodTemplate (by decide) (by decide)).1 {} (by decide) (by decide),
   (C7_theorem exWorkflowC7 exVolume defaultPathPrefix
      (getOk (rewrite_data_passing exWorkflowC7 exVolume defaultPathPrefix).result) 1
      dagOutTemplate (by decide) (by decide)).2 (by decide) (by decide) (by decide)⟩

/-- C8: after a successful rewrite, the returned workflow's volumes equal
the input volumes (empty when absent) with exactly the input volume
descriptor appended, its name overwritten to the fixed shared-volume name
data-storage; and every volume mount entry added to any template by the
rewrite carries that same name. -/
theorem C8_theorem (w : Workflow) (v : Volume) (pp : Str) (w' : Workflow)
    (hok : (rewrite_data_passing w v pp).result = .ok w') :
    w'.spec.volumes = some (w.spec.volumes.getD [] ++ [{ v with name := some data_volume_name }]) ∧
    ∀ i t, w.spec.templates.get? i = some t →
      ∃ t' added, w'.spec.templates.get? i = some t' ∧
        mountsOf t' = mountsOf t ++ added ∧
        ∀ m ∈ added, m.name = data_volume_name := by
  obtain ⟨ts1, ns, last, ts2, sd, h1, h2, hargs, hw't, hvol, _, _⟩ := rdp_ok_inv hok
  refine ⟨hvol, ?_⟩
  intro i t ht
  obtain ⟨t1, ht1, hcase⟩ := pass1_ok_each h1 i t ht
  have hm1 : ∃ added, mountsOf t1 = mountsOf t ++ added ∧
      ∀ m ∈ added, m.name = data_volume_name := by
    rcases hcase with ⟨_, heq⟩ | ⟨_, ns0, ns1, k, hrc⟩
    · subst heq; exact ⟨[], by simp, by simp⟩
    · cases hc : t.container with
      | none => rw [rct_err_no_container hc] at hrc; exact absurd hrc (by simp)
      | some cs =>
        by_cases htr : csTruthy cs = true
        · obtain ⟨he, _, _, _, _⟩ := rct_ok_dict hc htr hrc
          subst he
          refine ⟨(inputArts t).map (mkInputMount data_volume_name) ++
            (outputArts t).map (mkOutputMount data_volume_name (executionDataDir pp)), ?_, ?_⟩
          · rw [rctOut_mountsOf]
            have hmt : mountsOf t = cs.volumeMounts.getD [] := by
              unfold mountsOf
              rw [hc]
              rfl
            rw [hmt, List.append_assoc]
          · intro m hm
            rcases List.mem_append.mp hm with hm | hm
            · obtain ⟨a, _, rfl⟩ := List.mem_map.mp hm
              rfl
            · obtain ⟨a, _, rfl⟩ := List.mem_map.mp hm
              rfl
        · obtain ⟨he, _, _, _, _⟩ := rct_ok_steps hc (Bool.not_eq_true _ ▸ htr) hrc
          subst he
          exact ⟨[], by simp, by simp⟩
  obtain ⟨added, hadd, hnames⟩ := hm1
  obtain ⟨t2, ht2, hm2, _, _, _, _⟩ := pass2_preserve h2 ht1
  obtain ⟨t', ht', hm', _, _, _, _, _, _⟩ := final_preserve hw't ht2
  exact ⟨t', added, ht', by rw [hm', hm2, hadd], hnames⟩

/-- C8 witness: the end-to-end scenario, checking the volume list and the
mounts added to the producer template. -/
theorem C8_witness :
    (getOk (rewrite_data_passing exWorkflow exVolume defaultPathPrefix).result).spec.volumes =
      some (exWorkflow.spec.volumes.getD [] ++ [{ exVolume with name := some data_volume_name }]) ∧
    (∃ t' added,
      (getOk (rewrite_data_passing exWorkflow exVolume defaultPathPrefix).result).spec.templates.get? 0 = some t' ∧
      mountsOf t' = mountsOf prodTemplate ++ added ∧
      ∀ m ∈ added, m.name = data_volume_name) :=
  ⟨(C8_theorem exWorkflow exVolume defaultPathPrefix
      (getOk (rewrite_data_passing exWorkflow exVolume defaultPathPrefix).result) (by decide)).1,
   (C8_theorem exWorkflow exVolume defaultPathPrefix
      (getOk (rewrite_data_passing exWorkflow exVolume defaultPathPrefix).result) (by decide)).2
      0 prodTemplate (by decide)⟩

/-- C9: after a successful rewrite, exactly one non-fatal warning naming the
distinct artifact file basenames is emitted when more than one distinct
basename was collected over all container templates' artifacts, and no
warning otherwise; the workflow is still returned. -/
theorem C9_theorem (w : Workflow) (v : Volume) (pp : Str) (w' : Workflow)
    (hok : (rewrite_data_passing w v pp).result = .ok w') :
    (rewrite_data_passing w v pp).warnings =
      (if (collectNames w.spec.templates []).length > 1
       then [collectNames w.spec.templates []] else []) := by
  obtain ⟨ts1, ns, last, ts2, sd, h1, h2, hargs, _, _, _, hwarn⟩ := rdp_ok_inv hok
  have hns := pass1_ok_names h1
  rw [hwarn, hns]

/-- C9 witness: on the workflow with two distinct artifact basenames the
rewrite still returns a workflow and emits exactly one warning naming both
basenames; on the single-basename scenario it emits none. -/
theorem C9_witness :
    (rewrite_data_passing exWorkflowDivergent exVolume defaultPathPrefix).warnings =
      (if (collectNames exWorkflowDivergent.spec.templates []).length > 1
       then [collectNames exWorkflowDivergent.spec.templates []] else []) ∧
    (rewrite_data_passing exWorkflowDivergent exVolume defaultPathPrefix).warnings =
      [["data".data, "other".data]] ∧
    (rewrite_data_passing exWorkflow exVolume defaultPathPrefix).warnings = [] :=
  ⟨C9_theorem exWorkflowDivergent exVolume defaultPathPrefix
     (getOk (rewrite_data_passing exWorkflowDivergent exVolume defaultPathPrefix).result)
     (by decide),
   by decide, by decide⟩
